import Mathlib

/-!
Shallow embedding of the quiz-generation and answer-evaluation engine of
`pages/01_Comprehension.py` (vocabulary-quiz trainer), with proofs settling
the specification claims about it.

Strings are modelled as Lean `String` / `List Char`.  Python's Unicode-table
primitives (`str.lower`, `str.strip`, `unicodedata.normalize` plus
combining-mark stripping) are embedded by explicit tables faithful on the
character repertoire the application processes (ASCII, the Latin letters with
diacritics used in French translations, and the pinyin tone diacritics);
characters outside those tables are left unchanged.  Python's seeded
`random.Random` is abstracted as a state-threaded generator together with the
properties `random.sample` / `random.shuffle` guarantee (sampling without
replacement raising `ValueError` outside `0 ≤ k ≤ n`, shuffling producing a
permutation); raised exceptions are modelled as `Option`/`Except` failures.
-/

namespace HSK

/-- Apostrophe character `'` (U+0027). -/
def APOS : Char := Char.ofNat 39

/-- Right single quotation mark (U+2019), the curly apostrophe. -/
def RSQUO : Char := Char.ofNat 0x2019

/-- Python `str.strip()` / regex `\s` whitespace set (Unicode whitespace). -/
def isPySpace (c : Char) : Bool :=
  decide (c.toNat = 32 ∨ (9 ≤ c.toNat ∧ c.toNat ≤ 13) ∨
    (28 ≤ c.toNat ∧ c.toNat ≤ 31) ∨ c.toNat = 0x85 ∨ c.toNat = 0xA0 ∨
    c.toNat = 0x1680 ∨ (0x2000 ≤ c.toNat ∧ c.toNat ≤ 0x200A) ∨
    c.toNat = 0x2028 ∨ c.toNat = 0x2029 ∨ c.toNat = 0x202F ∨
    c.toNat = 0x205F ∨ c.toNat = 0x3000)

/-- Python `str.lower()`, character-wise, covering ASCII and Latin-1 letters
(the repertoire the app's data uses); other characters are unchanged. -/
def pyLowerChar (c : Char) : Char :=
  if decide (65 ≤ c.toNat ∧ c.toNat ≤ 90) then Char.ofNat (c.toNat + 32)
  else if decide (0xC0 ≤ c.toNat ∧ c.toNat ≤ 0xDE ∧ c.toNat ≠ 0xD7) then
    Char.ofNat (c.toNat + 32)
  else c

/-- The character class `[a-z0-9]` of `NON_WORD_PATTERN = re.compile(r"[^a-z0-9]+")`. -/
def isWordChar (c : Char) : Bool :=
  decide ((97 ≤ c.toNat ∧ c.toNat ≤ 122) ∨ (48 ≤ c.toNat ∧ c.toNat ≤ 57))

/-- Combining diacritical marks (Unicode category Mn on the repertoire in use:
the combining-diacritics block produced by the NFD table below). -/
def isMn (c : Char) : Bool :=
  decide (0x300 ≤ c.toNat ∧ c.toNat ≤ 0x36F)

/-- Canonical (NFD) decompositions for the precomposed Latin letters the app's
data uses.  Characters below U+00C0 have no canonical decomposition, hence the
guard; characters missing from the table are returned unchanged. -/
def nfdTable : List (Char × List Char) := [
  ('à', ['a', Char.ofNat 0x300]), ('â', ['a', Char.ofNat 0x302]),
  ('ä', ['a', Char.ofNat 0x308]), ('á', ['a', Char.ofNat 0x301]),
  ('ā', ['a', Char.ofNat 0x304]), ('ǎ', ['a', Char.ofNat 0x30C]),
  ('ç', ['c', Char.ofNat 0x327]), ('é', ['e', Char.ofNat 0x301]),
  ('è', ['e', Char.ofNat 0x300]), ('ê', ['e', Char.ofNat 0x302]),
  ('ë', ['e', Char.ofNat 0x308]), ('ē', ['e', Char.ofNat 0x304]),
  ('ě', ['e', Char.ofNat 0x30C]), ('î', ['i', Char.ofNat 0x302]),
  ('ï', ['i', Char.ofNat 0x308]), ('í', ['i', Char.ofNat 0x301]),
  ('ì', ['i', Char.ofNat 0x300]), ('ī', ['i', Char.ofNat 0x304]),
  ('ǐ', ['i', Char.ofNat 0x30C]), ('ô', ['o', Char.ofNat 0x302]),
  ('ö', ['o', Char.ofNat 0x308]), ('ó', ['o', Char.ofNat 0x301]),
  ('ò', ['o', Char.ofNat 0x300]), ('ō', ['o', Char.ofNat 0x304]),
  ('ǒ', ['o', Char.ofNat 0x30C]), ('ù', ['u', Char.ofNat 0x300]),
  ('û', ['u', Char.ofNat 0x302]), ('ü', ['u', Char.ofNat 0x308]),
  ('ú', ['u', Char.ofNat 0x301]), ('ū', ['u', Char.ofNat 0x304]),
  ('ǔ', ['u', Char.ofNat 0x30C]), ('ÿ', ['y', Char.ofNat 0x308])]

/-- `unicodedata.normalize("NFD", ·)`, character-wise. -/
def nfdDecomp (c : Char) : List Char :=
  if c.toNat < 0xC0 then [c]
  else
    match nfdTable.lookup c with
    | some ds => ds
    | none => [c]

/-- Python `str.strip()` on a character list. -/
def pyStripL (l : List Char) : List Char :=
  ((l.dropWhile isPySpace).reverse.dropWhile isPySpace).reverse

/-- Python `str.strip()`. -/
def pyStrip (s : String) : String :=
  String.mk (pyStripL s.data)

/-- Replace every maximal run of characters satisfying `p` by the single
character `r` (the effect of `re.sub` with a `[...]+` character-class
pattern).  `inRun` records whether the previous character was part of a run. -/
def subRunsAux (p : Char → Bool) (r : Char) : Bool → List Char → List Char
  | _, [] => []
  | inRun, c :: cs =>
    if p c then
      if inRun then subRunsAux p r true cs else r :: subRunsAux p r true cs
    else c :: subRunsAux p r false cs

/-- `re.sub(pattern_of_runs_of_p, r, ·)`. -/
def subRuns (p : Char → Bool) (r : Char) (l : List Char) : List Char :=
  subRunsAux p r false l

/-- `normalize_text_answer` from `pages/01_Comprehension.py`: normalize text
answers for forgiving comparisons. -/
def normalize_text_answer (value : String) : String :=
  -- normalized = unicodedata.normalize("NFD", value.strip().lower())
  let s1 := (pyStripL value.data).map pyLowerChar
  let s2 := (s1.map nfdDecomp).flatten
  -- drop combining marks (category Mn)
  let s3 := s2.filter (fun c => !(isMn c))
  -- normalized.replace("’", "'")
  let s4 := s3.map (fun c => if c = RSQUO then APOS else c)
  -- normalized.replace("-", " ")
  let s5 := s4.map (fun c => if c = '-' then ' ' else c)
  -- NON_WORD_PATTERN.sub(" ", normalized)
  let s6 := subRuns (fun c => !(isWordChar c)) ' ' s5
  -- normalized.replace("'", " ")
  let s7 := s6.map (fun c => if c = APOS then ' ' else c)
  -- re.sub(r"\s+", " ", normalized).strip()
  let s8 := pyStripL (subRuns isPySpace ' ' s7)
  String.mk s8

example : normalize_text_answer "  Apprécier  " = "apprecier" := by decide

example : normalize_text_answer "L’été-doré!!" = "l ete dore" := by decide

/-- Python `str.strip("/")` (both ends, only the slash character). -/
def stripSlashes (l : List Char) : List Char :=
  ((l.dropWhile (· == '/')).reverse.dropWhile (· == '/')).reverse

/-- `cleaned.lower().startswith("cl:")` — the classifier-annotation marker. -/
def startsWithClTag (l : List Char) : Bool :=
  match l with
  | c1 :: c2 :: c3 :: _ =>
    pyLowerChar c1 == 'c' && pyLowerChar c2 == 'l' && pyLowerChar c3 == ':'
  | _ => false

/-- `split_alt_translations`: convert alternate translations into a clean list
of synonyms. -/
def split_alt_translations (value : String) : List String :=
  if value.isEmpty then []
  else
    let hasSemi := value.data.contains ';'
    -- candidates = re.split(r"[;\n]", value)
    let candidates := value.data.splitOnP (fun c => c == ';' || c == '\n')
    ((candidates.map (fun candidate =>
      let cleaned := pyStripL (stripSlashes (pyStripL candidate))
      if cleaned.isEmpty then []
      else if startsWithClTag cleaned then []
      else
        -- if ";" not in value and "," in cleaned: split on commas
        let parts :=
          if !hasSemi && cleaned.contains ',' then
            (cleaned.splitOnP (fun c => c == ',')).map pyStripL
          else [cleaned]
        parts.filter (fun part => !part.isEmpty && !startsWithClTag part))).flatten).map
      String.mk

example : split_alt_translations "apprecier; adorer" = ["apprecier", "adorer"] := by
  decide

example : split_alt_translations "un; une; CL:ge4" = ["un", "une"] := by decide

example : split_alt_translations "un, une, cl:ge4" = ["un", "une"] := by decide

/-- One vocabulary entry as returned by the vocabulary source
(`get_entries`): the dict keys `hanzi`, `pinyin`, `translation`,
`alt_translations` used by the quiz engine. -/
structure Entry where
  hanzi : String
  pinyin : String
  translation : String
  alt_translations : String
deriving Repr, DecidableEq, Inhabited

/-- `gather_translation_answers`: the list of accepted translations for a
vocabulary entry. -/
def gather_translation_answers (entry : Entry) : List String :=
  let answers := entry.translation :: split_alt_translations entry.alt_translations
  answers.filter (fun answer => !answer.isEmpty)

/-- Dot above (U+02D9), skipped by the pinyin normalizer. -/
def DOTAB : Char := Char.ofNat 0x2D9

/-- `PINYIN_DIACRITIC_MAP`: toned vowels/consonants to (base letter, tone). -/
def PINYIN_DIACRITIC_MAP : List (Char × (String × Nat)) := [
  ('ā', ("a", 1)), ('á', ("a", 2)), ('ǎ', ("a", 3)), ('à', ("a", 4)),
  ('Ā', ("a", 1)), ('Á', ("a", 2)), ('Ǎ', ("a", 3)), ('À', ("a", 4)),
  ('ē', ("e", 1)), ('é', ("e", 2)), ('ě', ("e", 3)), ('è', ("e", 4)),
  ('Ē', ("e", 1)), ('É', ("e", 2)), ('Ě', ("e", 3)), ('È', ("e", 4)),
  ('ī', ("i", 1)), ('í', ("i", 2)), ('ǐ', ("i", 3)), ('ì', ("i", 4)),
  ('Ī', ("i", 1)), ('Í', ("i", 2)), ('Ǐ', ("i", 3)), ('Ì', ("i", 4)),
  ('ō', ("o", 1)), ('ó', ("o", 2)), ('ǒ', ("o", 3)), ('ò', ("o", 4)),
  ('Ō', ("o", 1)), ('Ó', ("o", 2)), ('Ǒ', ("o", 3)), ('Ò', ("o", 4)),
  ('ū', ("u", 1)), ('ú', ("u", 2)), ('ǔ', ("u", 3)), ('ù', ("u", 4)),
  ('Ū', ("u", 1)), ('Ú', ("u", 2)), ('Ǔ', ("u", 3)), ('Ù', ("u", 4)),
  ('ǖ', ("v", 1)), ('ǘ', ("v", 2)), ('ǚ', ("v", 3)), ('ǜ', ("v", 4)),
  ('Ǖ', ("v", 1)), ('Ǘ', ("v", 2)), ('Ǚ', ("v", 3)), ('Ǜ', ("v", 4)),
  ('ń', ("n", 2)), ('ň', ("n", 3)), ('ǹ', ("n", 4)),
  ('Ń', ("n", 2)), ('Ň', ("n", 3)), ('Ǹ', ("n", 4)),
  ('ḿ', ("m", 2)), ('ṁ', ("m", 2))]

/-- Character class of `PINYIN_SYLLABLE_RE = (?iu)[a-züvÀ-ɏ]+[1-5]?`:
ASCII letters (case-insensitive `[a-z]`) plus the raw range U+00C0–U+024F
(which contains `ü`, `Ü` and all tone-marked vowels).  Case variants lying
outside these ranges do not occur in the app's data. -/
def pinyinLetter (c : Char) : Bool :=
  decide ((97 ≤ c.toNat ∧ c.toNat ≤ 122) ∨ (65 ≤ c.toNat ∧ c.toNat ≤ 90) ∨
    (0xC0 ≤ c.toNat ∧ c.toNat ≤ 0x24F))

/-- A tone digit `[1-5]` as matched by `PINYIN_SYLLABLE_RE`. -/
def isToneDigit (c : Char) : Bool :=
  decide (49 ≤ c.toNat ∧ c.toNat ≤ 53)

/-- `PINYIN_SYLLABLE_RE.finditer`: maximal runs of `pinyinLetter` characters,
each optionally followed by one digit `1`–`5`.  `cur` holds the letters of the
current run, reversed. -/
def pinyinTokensAux : List Char → List Char → List (List Char)
  | cur, [] => if cur.isEmpty then [] else [cur.reverse]
  | cur, c :: cs =>
    if pinyinLetter c then pinyinTokensAux (c :: cur) cs
    else if !cur.isEmpty && isToneDigit c then
      (cur.reverse ++ [c]) :: pinyinTokensAux [] cs
    else if cur.isEmpty then pinyinTokensAux [] cs
    else cur.reverse :: pinyinTokensAux [] cs

/-- All matches of `PINYIN_SYLLABLE_RE` in the input. -/
def pinyinTokens (l : List Char) : List (List Char) :=
  pinyinTokensAux [] l

/-- Python `str.replace(u ++ ":", rep)` for a single character `u` (used for
the `U:`/`u:` digraph spellings of `ü`; left-to-right, non-overlapping). -/
def replacePairColon (u : Char) (rep : Char) : List Char → List Char
  | [] => []
  | [c] => [c]
  | a :: b :: rest =>
    if a == u && b == ':' then rep :: replacePairColon u rep rest
    else a :: replacePairColon u rep (b :: rest)

/-- `token.replace("U:", "Ü").replace("u:", "ü").replace("V", "Ü").replace("v", "ü")`. -/
def pinyinCanonToken (tok : List Char) : List Char :=
  let t1 := replacePairColon 'U' 'Ü' tok
  let t2 := replacePairColon 'u' 'ü' t1
  t2.map (fun c => if c == 'V' then 'Ü' else if c == 'v' then 'ü' else c)

/-- The per-character loop of `normalize_pinyin_value`: state is
(base characters so far, tone). -/
def pinyinCharStep (acc : List Char × Nat) (c : Char) : List Char × Nat :=
  let bs := acc.1
  let tone := acc.2
  if c == APOS || c == RSQUO || c == DOTAB then acc
  else if c.isDigit then
    (bs, if decide (49 ≤ c.toNat ∧ c.toNat ≤ 52) then c.toNat - 48 else tone)
  else
    match PINYIN_DIACRITIC_MAP.lookup c with
    | some bt => (bs ++ bt.1.data, bt.2)
    | none =>
      if c == 'ü' || c == 'Ü' then (bs ++ ['v'], tone)
      else
        -- unicodedata.normalize("NFKD", char), strip Mn, lower
        let stripped := (nfdDecomp c).filter (fun d => !(isMn d))
        if stripped.isEmpty then (bs, tone)
        else (bs ++ stripped.map pyLowerChar, tone)

/-- `normalize_pinyin_value`: canonical representation of pinyin supporting
tones and digits — a sequence of (base syllable, tone) pairs. -/
def normalize_pinyin_value (value : String) : List (String × Nat) :=
  if value.isEmpty then []
  else
    (pinyinTokens value.data).filterMap (fun tok =>
      let t := pinyinCanonToken tok
      let bt := t.foldl pinyinCharStep ([], 0)
      if bt.1.isEmpty then none else some (String.mk bt.1, bt.2))

/-- `strip_pinyin_tones`: the syllable sequence without tone information. -/
def strip_pinyin_tones (tokens : List (String × Nat)) : List String :=
  tokens.map (fun t => t.1)

example : normalize_pinyin_value "ni3 hao3" = [("ni", 3), ("hao", 3)] := by decide

example : normalize_pinyin_value "nǐ hǎo" = [("ni", 3), ("hao", 3)] := by decide

example : normalize_pinyin_value "ni hao" = [("ni", 0), ("hao", 0)] := by decide

example : normalize_pinyin_value "nü3 er2" = [("nv", 3), ("er", 2)] := by decide

/-- One question dict produced by `build_question_pool`.  The dict's optional
keys are modelled with defaults matching the `question.get(...)` fallbacks:
`accepted_translations` (a Python set of normalized strings, modelled as a
list compared by membership), `accepted_answers_raw`, `normalized_pinyin`
(absent ⟷ `none`), `choices`, `correct` (`question.get("correct", "")`).
`qtype` is the free-form string tag stored under the `"type"` key. -/
structure Question where
  hanzi : String
  pinyin : String
  translation : String
  alt_translations : String
  qtype : String
  accepted_translations : List String := []
  accepted_answers_raw : List String := []
  normalized_pinyin : Option (List (String × Nat)) := none
  choices : List String := []
  correct : String := ""
deriving Repr, DecidableEq, Inhabited

/-- One record appended to `st.session_state["history"]` by `evaluate_answer`. -/
structure HistoryEntry where
  hanzi : String
  pinyin : String
  correct : String
  translation : String
  question_type : String
  user_choice : String
  is_correct : Bool
deriving Repr, DecidableEq, Inhabited

/-- The slice of `st.session_state` the quiz engine reads and writes. -/
structure QuizState where
  questions : List Question
  current_idx : Nat
  num_questions : Int
  score : Nat
  answered : Bool
  last_choice : Option String
  feedback : String
  history : List HistoryEntry
  pinyin_variant : String
deriving Repr, DecidableEq, Inhabited

/-- `get_question_pinyin_tokens`: normalized pinyin tokens from a question
definition (precomputed if present, else recomputed from the pinyin field). -/
def get_question_pinyin_tokens (question : Question) : List (String × Nat) :=
  match question.normalized_pinyin with
  | some raw_tokens => raw_tokens
  | none => normalize_pinyin_value question.pinyin

/-- An abstract seeded generator standing for `random.Random(seed)`: a state
of type `σ` threaded through `sample` (on entries and on strings, fallible —
`none` models the `ValueError` that `random.sample` raises when the requested
size is negative or exceeds the population) and `shuffle`. -/
structure RNG (σ : Type) where
  sampleE : List Entry → Int → σ → Option (List Entry × σ)
  sampleS : List String → Int → σ → Option (List String × σ)
  shuffle : List String → σ → List String × σ

/-- What `random.sample(l, k)` guarantees: it succeeds exactly when
`0 ≤ k ≤ len(l)`, and then returns `k` elements drawn from `l` without
replacement (a sub-permutation of `l`). -/
def SampleSpec {α σ : Type} (f : List α → Int → σ → Option (List α × σ)) : Prop :=
  ∀ l k s,
    (0 ≤ k ∧ k ≤ (l.length : Int) →
      ∃ r s2, f l k s = some (r, s2) ∧ (r.length : Int) = k ∧ r.Subperm l) ∧
    (¬(0 ≤ k ∧ k ≤ (l.length : Int)) → f l k s = none)

/-- What `random.shuffle` guarantees: the result is a permutation. -/
def ShuffleSpec {σ : Type} (g : List String → σ → List String × σ) : Prop :=
  ∀ l s, (g l s).1.Perm l

/-- A generator faithful to `random.Random`. -/
def GoodRNG {σ : Type} (rng : RNG σ) : Prop :=
  SampleSpec rng.sampleE ∧ SampleSpec rng.sampleS ∧ ShuffleSpec rng.shuffle

/-- A concrete deterministic generator satisfying `GoodRNG`: sampling takes a
prefix, shuffling is the identity permutation (one admissible behaviour of the
Mersenne generator for some seed). -/
def takeRNG : RNG Unit where
  sampleE l k _ :=
    if 0 ≤ k ∧ k ≤ (l.length : Int) then some (l.take k.toNat, ()) else none
  sampleS l k _ :=
    if 0 ≤ k ∧ k ≤ (l.length : Int) then some (l.take k.toNat, ()) else none
  shuffle l _ := (l, ())

/-- `[item["hanzi"] for item in vocab if item["hanzi"] != entry["hanzi"]]`. -/
def incorrect_pool_hanzi (vocab : List Entry) (entry : Entry) : List String :=
  (vocab.filter (fun item => item.hanzi ≠ entry.hanzi)).map (fun item => item.hanzi)

/-- `[item["translation"] for item in vocab if item["translation"] != entry["translation"]]`. -/
def incorrect_pool_translation (vocab : List Entry) (entry : Entry) : List String :=
  (vocab.filter (fun item => item.translation ≠ entry.translation)).map
    (fun item => item.translation)

/-- The body of `build_question_pool`'s per-entry loop: build one question
for `entry`, threading the generator state; `Except.error` models the
`ValueError` raised on an unsupported question type. -/
def buildOneQuestion {σ : Type} (rng : RNG σ) (vocab : List Entry)
    (question_type : String) (num_choices : Int) (entry : Entry) (s : σ) :
    Except String (Question × σ) :=
  let base : Question :=
    { hanzi := entry.hanzi, pinyin := entry.pinyin,
      translation := entry.translation,
      alt_translations := entry.alt_translations, qtype := question_type }
  if question_type = "hanzi_to_translation_input" then
    let accepted := gather_translation_answers entry
    Except.ok ({ base with
      accepted_translations := accepted.map normalize_text_answer,
      accepted_answers_raw := accepted,
      correct := entry.translation }, s)
  else if question_type = "hanzi_to_pinyin_input" then
    Except.ok ({ base with
      normalized_pinyin := some (normalize_pinyin_value entry.pinyin),
      correct := entry.pinyin }, s)
  else if question_type = "translation_to_hanzi_mcq" then
    let incorrect_pool := incorrect_pool_hanzi vocab entry
    let choice_count : Int := min (num_choices - 1) (incorrect_pool.length : Int)
    match (if 0 < choice_count then rng.sampleS incorrect_pool choice_count s
           else some ([], s)) with
    | none => Except.error "ValueError: sample"
    | some (incorrect_choices, s2) =>
      let shuffled := rng.shuffle (incorrect_choices ++ [entry.hanzi]) s2
      Except.ok ({ base with choices := shuffled.1, correct := entry.hanzi },
        shuffled.2)
  else if question_type = "hanzi_to_translation_mcq" then
    let incorrect_pool := incorrect_pool_translation vocab entry
    let choice_count : Int := min (num_choices - 1) (incorrect_pool.length : Int)
    match (if 0 < choice_count then rng.sampleS incorrect_pool choice_count s
           else some ([], s)) with
    | none => Except.error "ValueError: sample"
    | some (incorrect_choices, s2) =>
      let shuffled := rng.shuffle (incorrect_choices ++ [entry.translation]) s2
      Except.ok ({ base with choices := shuffled.1, correct := entry.translation },
        shuffled.2)
  else Except.error ("Unsupported question type: " ++ question_type)

/-- The loop of `build_question_pool` over the selected entries. -/
def buildQuestionsLoop {σ : Type} (rng : RNG σ) (vocab : List Entry)
    (question_type : String) (num_choices : Int) :
    List Entry → σ → Except String (List Question × σ)
  | [], s => Except.ok ([], s)
  | entry :: rest, s =>
    match buildOneQuestion rng vocab question_type num_choices entry s with
    | Except.error e => Except.error e
    | Except.ok (q, s2) =>
      match buildQuestionsLoop rng vocab question_type num_choices rest s2 with
      | Except.error e => Except.error e
      | Except.ok (qs, s3) => Except.ok (q :: qs, s3)

/-- `build_question_pool(vocab, num_questions, question_type, num_choices,
seed)`: the caller's `(rng, s0)` stands for `random.Random(seed)`.
`Except.error` models an uncaught `ValueError` (from `random.sample` on a
negative count, or from an unsupported question type). -/
def build_question_pool {σ : Type} (rng : RNG σ) (vocab : List Entry)
    (num_questions : Int) (question_type : String) (num_choices : Int)
    (s0 : σ) : Except String (List Question × σ) :=
  let total_questions : Int := min num_questions (vocab.length : Int)
  match rng.sampleE vocab total_questions s0 with
  | none => Except.error "ValueError: sample"
  | some (selected, s1) =>
    buildQuestionsLoop rng vocab question_type num_choices selected s1

/-- `reset_quiz`: initialize session state for a new quiz.  The vocabulary
list is passed directly (the source fetches it via the external collaborator
`get_entries(quiz_key)`); `variant` is the session's pre-existing
`pinyin_variant` key, which `reset_quiz` does not touch.  `none` models a
propagated `ValueError`. -/
def reset_quiz {σ : Type} (rng : RNG σ) (vocab : List Entry)
    (num_questions : Int) (question_type : String) (variant : String)
    (s0 : σ) : Option QuizState :=
  if vocab.isEmpty then
    some { questions := [], current_idx := 0, num_questions := 0, score := 0,
           answered := false, last_choice := none, feedback := "",
           history := [], pinyin_variant := variant }
  else
    let total_questions : Int := min num_questions (vocab.length : Int)
    match build_question_pool rng vocab total_questions question_type 4 s0 with
    | Except.error _ => none
    | Except.ok (qs, _) =>
      some { questions := qs, current_idx := 0,
             num_questions := total_questions, score := 0, answered := false,
             last_choice := none, feedback := "", history := [],
             pinyin_variant := variant }

/-- The branch dispatch of `evaluate_answer`: given the current question and
the stripped submission, compute `(is_correct, feedback)`.  (Every question
dict built by the app carries a `"type"` key, so the
`question.get("type", DEFAULT_QUESTION_TYPE)` fallback is the stored tag
`qtype`.) -/
def evaluate_result (st : QuizState) (question : Question)
    (user_answer : String) : Bool × String :=
  let question_type := question.qtype
  let correct_display := question.correct
  if question_type = "hanzi_to_translation_input" then
    let normalized_input :=
      if user_answer ≠ "" then normalize_text_answer user_answer else ""
    let accepted := question.accepted_translations
    let is_correct :=
      !normalized_input.isEmpty && accepted.contains normalized_input
    let feedback :=
      if is_correct then "Bonne réponse !"
      else if !question.accepted_answers_raw.isEmpty then
        "Mauvaise réponse. Traductions acceptées : " ++
          String.intercalate ", " question.accepted_answers_raw
      else "Mauvaise réponse. Traduction attendue : **" ++
        correct_display ++ "**."
    (is_correct, feedback)
  else if question_type = "hanzi_to_pinyin_input" then
    let variant := st.pinyin_variant
    let normalized_input := normalize_pinyin_value user_answer
    let expected := get_question_pinyin_tokens question
    let is_correct :=
      if variant = "without_tones" then
        !normalized_input.isEmpty &&
          (strip_pinyin_tones normalized_input ==
            strip_pinyin_tones expected)
      else !normalized_input.isEmpty && (normalized_input == expected)
    (is_correct,
      if is_correct then "Bonne réponse !"
      else "Pinyin attendu : **" ++ correct_display ++ "**.")
  else if question_type = "translation_to_hanzi_mcq" then
    let is_correct := user_answer == correct_display
    (is_correct,
      if is_correct then "Bonne réponse !"
      else "Mauvaise réponse. Le caractère correct est **" ++
        correct_display ++ "**.")
  else
    let is_correct := user_answer == correct_display
    (is_correct,
      if is_correct then "Bonne réponse !"
      else "Mauvaise réponse. La bonne traduction est **" ++
        correct_display ++ "**.")

/-- `evaluate_answer(submission)`: evaluate the submitted answer and update
session state.  `none` models the `IndexError` raised when `current_idx` is
out of range of `questions`. -/
def evaluate_answer (submission : Option String) (st : QuizState) :
    Option QuizState :=
  match st.questions.get? st.current_idx with
  | none => none
  | some question =>
    -- user_answer = (submission or "").strip()
    let user_answer := pyStrip (submission.getD "")
    let res := evaluate_result st question user_answer
    some { st with
      answered := true,
      last_choice := some user_answer,
      score := st.score + (if res.1 then 1 else 0),
      feedback := res.2,
      history := st.history ++
        [{ hanzi := question.hanzi, pinyin := question.pinyin,
           correct := question.correct, translation := question.translation,
           question_type := question.qtype, user_choice := user_answer,
           is_correct := res.1 }] }

/-- One `submit` through the UI: `render_quiz` only offers the answer form
(and hence only calls `evaluate_answer`) while `answered` is false. -/
def submit_answer (submission : Option String) (st : QuizState) :
    Option QuizState :=
  if st.answered then some st else evaluate_answer submission st

/-- The "Question suivante" button of `render_quiz`, only rendered while
`answered` is true: advance the cursor and reset the per-question flags. -/
def advance_question (st : QuizState) : QuizState :=
  if st.answered then
    { st with
      current_idx := st.current_idx + 1
      answered := false
      last_choice := none
      feedback := "" }
  else st

/-- The COMPLETE state: `main` renders the summary when
`current_idx >= len(questions)`. -/
def session_complete (st : QuizState) : Prop :=
  st.questions.length ≤ st.current_idx

/-! ### The normal form produced by `normalize_text_answer`

`normalize_text_answer` always outputs a string of `[a-z0-9]` words separated
by single spaces, with no leading or trailing space; on such strings every
stage of the pipeline is the identity, which yields idempotence (claim C5). -/

theorem char_eq_of_toNat {c d : Char} (h : c.toNat = d.toNat) : c = d :=
  Char.eq_of_val_eq (UInt32.toNat.inj h)

theorem bool_eq_false {b : Bool} (h : ¬b = true) : b = false := by
  simpa using h

/-- Characters of `subRunsAux` output: the replacement `r` or an input
character not satisfying `p`. -/
theorem subRunsAux_mem {p : Char → Bool} {r : Char} :
    ∀ {l : List Char} {b : Bool} {c : Char}, c ∈ subRunsAux p r b l →
      c = r ∨ (c ∈ l ∧ p c = false) := by
  intro l
  induction l with
  | nil => intro b c h; simp [subRunsAux] at h
  | cons d cs ih =>
    intro b c h
    by_cases hd : p d
    · cases b with
      | true =>
        simp only [subRunsAux, hd, if_true] at h
        rcases ih h with h1 | h2
        · exact Or.inl h1
        · exact Or.inr ⟨List.mem_cons_of_mem d h2.1, h2.2⟩
      | false =>
        simp only [subRunsAux, hd, if_true, Bool.false_eq_true, if_false,
          List.mem_cons] at h
        rcases h with h1 | h1
        · exact Or.inl h1
        · rcases ih h1 with h2 | h3
          · exact Or.inl h2
          · exact Or.inr ⟨List.mem_cons_of_mem d h3.1, h3.2⟩
    · have hd2 : p d = false := bool_eq_false hd
      simp only [subRunsAux, hd2, Bool.false_eq_true, if_false,
        List.mem_cons] at h
      rcases h with h1 | h1
      · subst h1; exact Or.inr ⟨by simp, hd2⟩
      · rcases ih h1 with h2 | h3
        · exact Or.inl h2
        · exact Or.inr ⟨List.mem_cons_of_mem d h3.1, h3.2⟩

/-- Inside a run (flag `true`) the first emitted character does not satisfy
`p`. -/
theorem subRunsAux_head_true {p : Char → Bool} {r : Char} :
    ∀ {l : List Char} {c : Char}, (subRunsAux p r true l).head? = some c →
      p c = false := by
  intro l
  induction l with
  | nil => intro c h; simp [subRunsAux] at h
  | cons d cs ih =>
    intro c h
    by_cases hd : p d
    · simp only [subRunsAux, hd, if_true] at h
      exact ih h
    · have hd2 : p d = false := bool_eq_false hd
      simp only [subRunsAux, hd2, Bool.false_eq_true, if_false,
        List.head?_cons, Option.some.injEq] at h
      subst h
      exact hd2

/-- The run flag is irrelevant when the next character does not satisfy `p`. -/
theorem subRunsAux_true_eq_false {p : Char → Bool} {r : Char} {l : List Char}
    (h : ∀ c, l.head? = some c → p c = false) :
    subRunsAux p r true l = subRunsAux p r false l := by
  cases l with
  | nil => rfl
  | cons d cs =>
    have hd := h d rfl
    simp [subRunsAux, hd]

/-- No two adjacent characters of the list both satisfy `p`. -/
def noAdjP (p : Char → Bool) : List Char → Bool
  | [] => true
  | [_] => true
  | c :: d :: l => (!(p c && p d)) && noAdjP p (d :: l)

theorem noAdjP_tail {p : Char → Bool} {c : Char} {l : List Char}
    (h : noAdjP p (c :: l) = true) : noAdjP p l = true := by
  cases l with
  | nil => rfl
  | cons d cs =>
    simp only [noAdjP, Bool.and_eq_true] at h
    exact h.2

theorem noAdjP_cons {p : Char → Bool} {c : Char} {l : List Char}
    (hl : noAdjP p l = true)
    (hc : ∀ d, l.head? = some d → (!(p c && p d)) = true) :
    noAdjP p (c :: l) = true := by
  cases l with
  | nil => rfl
  | cons d cs =>
    simp only [noAdjP, Bool.and_eq_true]
    exact ⟨hc d rfl, hl⟩

theorem noAdjP_congr {p q : Char → Bool} :
    ∀ {l : List Char}, (∀ c ∈ l, p c = q c) → noAdjP p l = noAdjP q l := by
  intro l
  induction l with
  | nil => intro _; rfl
  | cons c cs ih =>
    intro h
    cases cs with
    | nil => rfl
    | cons d ds =>
      have hc : p c = q c := h c (by simp)
      have hd : p d = q d := h d (by simp)
      have ht := ih (fun e he => h e (List.mem_cons_of_mem c he))
      simp only [noAdjP, hc, hd, ht]

/-- Output of `subRunsAux` never has two adjacent characters satisfying `p`. -/
theorem subRunsAux_noAdjP {p : Char → Bool} {r : Char} :
    ∀ (l : List Char) (b : Bool), noAdjP p (subRunsAux p r b l) = true := by
  intro l
  induction l with
  | nil => intro b; rfl
  | cons d cs ih =>
    intro b
    by_cases hd : p d
    · cases b with
      | true => simpa [subRunsAux, hd] using ih true
      | false =>
        simp only [subRunsAux, hd, if_true, Bool.false_eq_true, if_false]
        refine noAdjP_cons (ih true) ?_
        intro e he
        have := subRunsAux_head_true he
        simp [this]
    · have hd2 : p d = false := bool_eq_false hd
      simp only [subRunsAux, hd2, Bool.false_eq_true, if_false]
      refine noAdjP_cons (ih false) ?_
      intro e _
      simp [hd2]

/-- On a list whose `p`-characters are all equal to `r` and pairwise
non-adjacent, run substitution is the identity. -/
theorem subRunsAux_eq_self {p : Char → Bool} {r : Char} :
    ∀ {l : List Char}, (∀ c ∈ l, p c = true → c = r) → noAdjP p l = true →
      subRunsAux p r false l = l := by
  intro l
  induction l with
  | nil => intro _ _; rfl
  | cons d cs ih =>
    intro h1 h2
    have htail := ih (fun c hc hp => h1 c (List.mem_cons_of_mem d hc) hp)
      (noAdjP_tail h2)
    by_cases hd : p d
    · have hdr : d = r := h1 d (by simp) hd
      have hhead : ∀ c, cs.head? = some c → p c = false := by
        intro c hc
        cases cs with
        | nil => simp at hc
        | cons e es =>
          simp only [List.head?_cons, Option.some.injEq] at hc
          subst hc
          simp only [noAdjP, Bool.and_eq_true] at h2
          have := h2.1
          simp only [hd, Bool.true_and, Bool.not_eq_eq_eq_not,
            Bool.not_true] at this
          exact this
      calc subRunsAux p r false (d :: cs)
          = r :: subRunsAux p r true cs := by simp [subRunsAux, hd]
        _ = r :: subRunsAux p r false cs := by
            rw [subRunsAux_true_eq_false hhead]
        _ = r :: cs := by rw [htail]
        _ = d :: cs := by rw [hdr]
    · have hd2 : p d = false := bool_eq_false hd
      simp [subRunsAux, hd2, htail]

theorem map_self {f : Char → Char} :
    ∀ {l : List Char}, (∀ c ∈ l, f c = c) → l.map f = l := by
  intro l
  induction l with
  | nil => intro _; rfl
  | cons c cs ih =>
    intro h
    simp only [List.map_cons, h c (by simp),
      ih (fun d hd => h d (List.mem_cons_of_mem c hd))]

theorem flatten_map_self {f : Char → List Char} :
    ∀ {l : List Char}, (∀ c ∈ l, f c = [c]) → (l.map f).flatten = l := by
  intro l
  induction l with
  | nil => intro _; rfl
  | cons c cs ih =>
    intro h
    simp only [List.map_cons, List.flatten_cons, h c (by simp),
      ih (fun d hd => h d (List.mem_cons_of_mem c hd)), List.singleton_append]

theorem noAdjP_append_right {p : Char → Bool} :
    ∀ {t l : List Char}, noAdjP p (t ++ l) = true → noAdjP p l = true := by
  intro t
  induction t with
  | nil => intro l h; exact h
  | cons c cs ih =>
    intro l h
    exact ih (noAdjP_tail h)

theorem noAdjP_append_singleton {p : Char → Bool} :
    ∀ {l : List Char} {c : Char}, noAdjP p l = true →
      (∀ d, l.getLast? = some d → (!(p d && p c)) = true) →
      noAdjP p (l ++ [c]) = true := by
  intro l
  induction l with
  | nil => intro c _ _; rfl
  | cons d ds ih =>
    intro c hl hlast
    cases ds with
    | nil =>
      simp only [List.nil_append, List.singleton_append, noAdjP,
        Bool.and_eq_true]
      exact ⟨hlast d rfl, trivial⟩
    | cons e es =>
      have h2 : noAdjP p ((e :: es) ++ [c]) = true := by
        refine ih (noAdjP_tail hl) ?_
        intro f hf
        exact hlast f (by simpa using hf)
      simp only [noAdjP, Bool.and_eq_true] at hl
      simp only [List.cons_append, noAdjP, Bool.and_eq_true]
      refine ⟨hl.1, ?_⟩
      simpa using h2

theorem noAdjP_reverse {p : Char → Bool} :
    ∀ {l : List Char}, noAdjP p l = true → noAdjP p l.reverse = true := by
  intro l
  induction l with
  | nil => intro _; rfl
  | cons c cs ih =>
    intro h
    simp only [List.reverse_cons]
    refine noAdjP_append_singleton (ih (noAdjP_tail h)) ?_
    intro d hd
    rw [List.getLast?_reverse] at hd
    cases cs with
    | nil => simp at hd
    | cons e es =>
      simp only [List.head?_cons, Option.some.injEq] at hd
      subst hd
      simp only [noAdjP, Bool.and_eq_true] at h
      have := h.1
      simp only [Bool.not_eq_eq_eq_not, Bool.not_true, Bool.and_eq_false_iff]
        at this ⊢
      tauto

/-! ### Stripping lemmas -/

theorem dropWhile_eq_self_of_head {p : Char → Bool} {l : List Char}
    (h : ∀ c, l.head? = some c → p c = false) : l.dropWhile p = l := by
  cases l with
  | nil => rfl
  | cons c cs =>
    have := h c rfl
    simp [List.dropWhile_cons, this]

theorem head?_dropWhile {p : Char → Bool} :
    ∀ {l : List Char} {c : Char}, (l.dropWhile p).head? = some c →
      p c = false := by
  intro l
  induction l with
  | nil => intro c h; simp at h
  | cons d cs ih =>
    intro c h
    by_cases hd : p d
    · rw [List.dropWhile_cons_of_pos hd] at h
      exact ih h
    · rw [List.dropWhile_cons_of_neg hd] at h
      simp only [List.head?_cons, Option.some.injEq] at h
      subst h
      exact bool_eq_false hd

theorem getLast?_dropWhile {p : Char → Bool} {l : List Char} {c : Char}
    (h : (l.dropWhile p).getLast? = some c) : l.getLast? = some c := by
  have hne : l.dropWhile p ≠ [] := by
    intro hnil
    rw [hnil] at h
    simp at h
  conv_lhs => rw [← List.takeWhile_append_dropWhile (p := p) (l := l)]
  rw [List.getLast?_append_of_ne_nil _ hne]
  exact h

theorem pyStripL_mem {l : List Char} {c : Char} (h : c ∈ pyStripL l) :
    c ∈ l := by
  unfold pyStripL at h
  rw [List.mem_reverse] at h
  have h2 := (List.dropWhile_sublist isPySpace).mem h
  rw [List.mem_reverse] at h2
  exact (List.dropWhile_sublist isPySpace).mem h2

theorem pyStripL_head {l : List Char} {c : Char}
    (h : (pyStripL l).head? = some c) : isPySpace c = false := by
  unfold pyStripL at h
  rw [List.head?_reverse] at h
  have h2 := getLast?_dropWhile h
  rw [List.getLast?_reverse] at h2
  exact head?_dropWhile h2

theorem pyStripL_getLast {l : List Char} {c : Char}
    (h : (pyStripL l).getLast? = some c) : isPySpace c = false := by
  unfold pyStripL at h
  rw [List.getLast?_reverse] at h
  exact head?_dropWhile h

theorem pyStripL_eq_self {l : List Char}
    (hh : ∀ c, l.head? = some c → isPySpace c = false)
    (hl : ∀ c, l.getLast? = some c → isPySpace c = false) :
    pyStripL l = l := by
  unfold pyStripL
  rw [dropWhile_eq_self_of_head hh]
  rw [dropWhile_eq_self_of_head (by simpa [List.head?_reverse] using hl)]
  exact List.reverse_reverse l

theorem noAdjP_pyStripL {p : Char → Bool} {l : List Char}
    (h : noAdjP p l = true) : noAdjP p (pyStripL l) = true := by
  unfold pyStripL
  apply noAdjP_reverse
  have h1 : noAdjP p (l.dropWhile isPySpace) = true := by
    have := List.takeWhile_append_dropWhile (p := isPySpace) (l := l)
    exact noAdjP_append_right (this ▸ h)
  have h2 := noAdjP_reverse h1
  have := List.takeWhile_append_dropWhile (p := isPySpace)
    (l := (l.dropWhile isPySpace).reverse)
  exact noAdjP_append_right (this ▸ h2)

/-! ### Character-class facts -/

theorem string_eq_of_data {s t : String} (h : s.data = t.data) : s = t := by
  cases s; cases t; exact congrArg String.mk h

/-- The output alphabet of `normalize_text_answer`: `[a-z0-9]` or space. -/
def wordSpace (c : Char) : Bool := isWordChar c || c == ' '

theorem wordSpace_toNat {c : Char} (h : wordSpace c = true) :
    (97 ≤ c.toNat ∧ c.toNat ≤ 122) ∨ (48 ≤ c.toNat ∧ c.toNat ≤ 57) ∨
      c.toNat = 32 := by
  simp only [wordSpace, isWordChar, Bool.or_eq_true, decide_eq_true_eq,
    beq_iff_eq] at h
  rcases h with h | h
  · rcases h with h | h
    · exact Or.inl h
    · exact Or.inr (Or.inl h)
  · subst h; exact Or.inr (Or.inr rfl)

theorem wordSpace_space : wordSpace ' ' = true := by decide

theorem wordSpace_of_word {c : Char} (h : isWordChar c = true) :
    wordSpace c = true := by
  simp [wordSpace, h]

theorem pyLowerChar_ws {c : Char} (h : wordSpace c = true) :
    pyLowerChar c = c := by
  have hn := wordSpace_toNat h
  unfold pyLowerChar
  rcases hn with h1 | h1 | h1 <;>
    rw [if_neg (by simp only [decide_eq_true_eq]; omega),
      if_neg (by simp only [decide_eq_true_eq]; omega)]

theorem nfdDecomp_ws {c : Char} (h : wordSpace c = true) :
    nfdDecomp c = [c] := by
  have hn := wordSpace_toNat h
  unfold nfdDecomp
  rcases hn with h1 | h1 | h1 <;> rw [if_pos (by omega)]

theorem isMn_ws {c : Char} (h : wordSpace c = true) : isMn c = false := by
  have hn := wordSpace_toNat h
  simp only [isMn, decide_eq_false_iff_not]
  omega

theorem if_ne_char {c d e : Char} (h : c.toNat ≠ d.toNat) :
    (if c = d then e else c) = c := by
  rw [if_neg]
  intro he
  exact h (by rw [he])

theorem APOS_toNat : APOS.toNat = 39 := rfl

theorem RSQUO_toNat : RSQUO.toNat = 8217 := rfl

theorem dash_toNat : Char.toNat '-' = 45 := rfl

theorem isPySpace_word {c : Char} (h : isWordChar c = true) :
    isPySpace c = false := by
  simp only [isWordChar, decide_eq_true_eq] at h
  simp only [isPySpace, decide_eq_false_iff_not]
  omega

theorem isPySpace_space : isPySpace ' ' = true := by decide

theorem word_of_ws_ne_space {c : Char} (h : wordSpace c = true)
    (h2 : c ≠ ' ') : isWordChar c = true := by
  simp only [wordSpace, Bool.or_eq_true, beq_iff_eq] at h
  rcases h with h | h
  · exact h
  · exact absurd h h2

theorem space_of_ws_not_word {c : Char} (h : wordSpace c = true)
    (h2 : isWordChar c = false) : c = ' ' := by
  simp only [wordSpace, Bool.or_eq_true, beq_iff_eq, h2, Bool.false_eq_true,
    false_or] at h
  exact h

theorem space_of_ws_pyspace {c : Char} (h : wordSpace c = true)
    (h2 : isPySpace c = true) : c = ' ' := by
  by_cases hw : isWordChar c = true
  · rw [isPySpace_word hw] at h2; cases h2
  · exact space_of_ws_not_word h (bool_eq_false hw)

theorem pyspace_eq_nonword_ws {c : Char} (h : wordSpace c = true) :
    isPySpace c = !(isWordChar c) := by
  by_cases hw : isWordChar c = true
  · rw [isPySpace_word hw, hw]; rfl
  · have hw2 := bool_eq_false hw
    have hsp := space_of_ws_not_word h hw2
    subst hsp
    rw [isPySpace_space, hw2]
    rfl

/-! ### The canonical form and idempotence -/

/-- Canonical form of `normalize_text_answer` output: only `[a-z0-9]` and
spaces, no two adjacent non-word characters (hence no double spaces), and no
leading or trailing space. -/
def canonP (l : List Char) : Prop :=
  (∀ c ∈ l, wordSpace c = true) ∧
  noAdjP (fun c => !(isWordChar c)) l = true ∧
  (∀ c, l.head? = some c → c ≠ ' ') ∧
  (∀ c, l.getLast? = some c → c ≠ ' ')

theorem normalize_text_answer_data (value : String) :
    (normalize_text_answer value).data =
      pyStripL (subRuns isPySpace ' '
        ((subRuns (fun c => !(isWordChar c)) ' '
          ((((((pyStripL value.data).map pyLowerChar).map nfdDecomp).flatten.filter
            (fun c => !(isMn c))).map (fun c => if c = RSQUO then APOS else c)).map
            (fun c => if c = '-' then ' ' else c))).map
          (fun c => if c = APOS then ' ' else c))) := rfl

/-- Stage analysis common to both passes: starting from the output `s6` of
the non-word run substitution, the remaining stages reduce to a final
strip. -/
theorem tail_stages_eq {s6 : List Char}
    (hall : ∀ c ∈ s6, wordSpace c = true)
    (hadj : noAdjP (fun c => !(isWordChar c)) s6 = true) :
    pyStripL (subRuns isPySpace ' '
      (s6.map (fun c => if c = APOS then ' ' else c))) = pyStripL s6 := by
  have h7 : s6.map (fun c => if c = APOS then ' ' else c) = s6 := by
    apply map_self
    intro c hc
    have hn := wordSpace_toNat (hall c hc)
    apply if_ne_char
    rw [APOS_toNat]
    rcases hn with h1 | h1 | h1 <;> omega
  rw [h7]
  have hadj2 : noAdjP isPySpace s6 = true := by
    rw [noAdjP_congr (fun c hc => pyspace_eq_nonword_ws (hall c hc))]
    exact hadj
  have h8 : subRuns isPySpace ' ' s6 = s6 := by
    apply subRunsAux_eq_self
    · intro c hc hp
      exact space_of_ws_pyspace (hall c hc) hp
    · exact hadj2
  rw [h8]

/-- First pass: the output of `normalize_text_answer` is canonical. -/
theorem normalize_canon (s : String) :
    canonP (normalize_text_answer s).data := by
  rw [normalize_text_answer_data]
  set s5 := (((((pyStripL s.data).map pyLowerChar).map nfdDecomp).flatten.filter
    (fun c => !(isMn c))).map (fun c => if c = RSQUO then APOS else c)).map
    (fun c => if c = '-' then ' ' else c) with hs5
  set s6 := subRuns (fun c => !(isWordChar c)) ' ' s5 with hs6
  have hall : ∀ c ∈ s6, wordSpace c = true := by
    intro c hc
    rcases subRunsAux_mem hc with h1 | h1
    · subst h1; exact wordSpace_space
    · have : isWordChar c = true := by simpa using h1.2
      exact wordSpace_of_word this
  have hadj : noAdjP (fun c => !(isWordChar c)) s6 = true :=
    subRunsAux_noAdjP s5 false
  rw [tail_stages_eq hall hadj]
  refine ⟨?_, ?_, ?_, ?_⟩
  · intro c hc
    exact hall c (pyStripL_mem hc)
  · exact noAdjP_pyStripL hadj
  · intro c hc hsp
    have := pyStripL_head hc
    rw [hsp, isPySpace_space] at this
    cases this
  · intro c hc hsp
    have := pyStripL_getLast hc
    rw [hsp, isPySpace_space] at this
    cases this

/-- Second pass: `normalize_text_answer` is the identity on canonical
strings. -/
theorem normalize_canon_eq {l : List Char} (h : canonP l) :
    normalize_text_answer (String.mk l) = String.mk l := by
  obtain ⟨hall, hadj, hhead, hlast⟩ := h
  apply string_eq_of_data
  rw [normalize_text_answer_data]
  have hdata : (String.mk l).data = l := rfl
  rw [hdata]
  have hstrip : pyStripL l = l := by
    apply pyStripL_eq_self
    · intro c hc
      have hm : c ∈ l := List.mem_of_mem_head? (by simp [hc])
      exact isPySpace_word (word_of_ws_ne_space (hall c hm) (hhead c hc))
    · intro c hc
      have hm : c ∈ l := List.mem_of_mem_getLast? (by simp [hc])
      exact isPySpace_word (word_of_ws_ne_space (hall c hm) (hlast c hc))
  have hmap1 : l.map pyLowerChar = l :=
    map_self (fun c hc => pyLowerChar_ws (hall c hc))
  have hflat : (l.map nfdDecomp).flatten = l :=
    flatten_map_self (fun c hc => nfdDecomp_ws (hall c hc))
  have hfilt : l.filter (fun c => !(isMn c)) = l :=
    List.filter_eq_self.mpr (fun c hc => by rw [isMn_ws (hall c hc)]; rfl)
  have hmap2 : l.map (fun c => if c = RSQUO then APOS else c) = l :=
    map_self (fun c hc => by
      have hn := wordSpace_toNat (hall c hc)
      apply if_ne_char
      rw [RSQUO_toNat]
      rcases hn with h1 | h1 | h1 <;> omega)
  have hmap3 : l.map (fun c => if c = '-' then ' ' else c) = l :=
    map_self (fun c hc => by
      have hn := wordSpace_toNat (hall c hc)
      apply if_ne_char
      rw [dash_toNat]
      rcases hn with h1 | h1 | h1 <;> omega)
  have h6 : subRuns (fun c => !(isWordChar c)) ' ' l = l := by
    apply subRunsAux_eq_self
    · intro c hc hp
      have hp2 : isWordChar c = false := by simpa using hp
      exact space_of_ws_not_word (hall c hc) hp2
    · exact hadj
  rw [hstrip, hmap1, hflat, hfilt, hmap2, hmap3, h6, tail_stages_eq hall hadj]
  exact hstrip

/-- **C5.** Text normalization is idempotent: for every string `s`,
`normalize_text_answer(normalize_text_answer(s)) == normalize_text_answer(s)`. -/
theorem C5_normalize_text_answer_idempotent (s : String) :
    normalize_text_answer (normalize_text_answer s) =
      normalize_text_answer s := by
  have h1 := normalize_canon s
  have h2 := normalize_canon_eq h1
  have h3 : String.mk (normalize_text_answer s).data =
      normalize_text_answer s := rfl
  rw [h3] at h2
  exact h2

/-! ### The generator abstraction -/

theorem takeRNG_sample_spec :
    SampleSpec (α := Entry) takeRNG.sampleE ∧
      SampleSpec (α := String) takeRNG.sampleS := by
  constructor <;>
  · intro l k s
    constructor
    · intro hk
      refine ⟨l.take k.toNat, (), ?_, ?_, ?_⟩
      · simp only [takeRNG, if_pos hk]
      · rw [List.length_take]
        have hk2 : k.toNat ≤ l.length := by omega
        rw [min_eq_left hk2]
        exact Int.toNat_of_nonneg hk.1
      · exact (List.take_sublist k.toNat l).subperm
    · intro hk
      simp only [takeRNG, if_neg hk]

theorem takeRNG_good : GoodRNG takeRNG := by
  refine ⟨takeRNG_sample_spec.1, takeRNG_sample_spec.2, ?_⟩
  intro l s
  exact List.Perm.refl l

/-! ### Shape of one evaluation step -/

/-- `evaluate_answer` on an in-progress state: marks `answered`, records the
stripped submission, bumps the score by the correctness bit of
`evaluate_result` and appends one history record. -/
theorem evaluate_answer_eq {st : QuizState} {q : Question}
    (hq : st.questions.get? st.current_idx = some q) (sub : Option String) :
    evaluate_answer sub st = some
      { st with
        answered := true
        last_choice := some (pyStrip (sub.getD ""))
        score := st.score +
          (if (evaluate_result st q (pyStrip (sub.getD ""))).1 then 1 else 0)
        feedback := (evaluate_result st q (pyStrip (sub.getD ""))).2
        history := st.history ++
          [{ hanzi := q.hanzi, pinyin := q.pinyin, correct := q.correct,
             translation := q.translation, question_type := q.qtype,
             user_choice := pyStrip (sub.getD ""),
             is_correct :=
               (evaluate_result st q (pyStrip (sub.getD ""))).1 }] } := by
  unfold evaluate_answer
  rw [hq]

/-- On any question whose type tag is none of the three explicitly matched
branches, `evaluate_result` falls through to the final `else`: exact string
comparison of the stripped submission against `correct`. -/
theorem evaluate_result_else {st : QuizState} {q : Question}
    (h1 : q.qtype ≠ "hanzi_to_translation_input")
    (h2 : q.qtype ≠ "hanzi_to_pinyin_input")
    (h3 : q.qtype ≠ "translation_to_hanzi_mcq") (ua : String) :
    (evaluate_result st q ua).1 = (ua == q.correct) := by
  unfold evaluate_result
  simp only [if_neg h1, if_neg h2, if_neg h3]

/-! ### Builder lemmas -/

/-- The four supported question types. -/
def supported_type (qt : String) : Prop :=
  qt = "hanzi_to_translation_input" ∨ qt = "hanzi_to_pinyin_input" ∨
    qt = "translation_to_hanzi_mcq" ∨ qt = "hanzi_to_translation_mcq"

theorem buildOneQuestion_ok {σ : Type} {rng : RNG σ} (hg : GoodRNG rng)
    (vocab : List Entry) (qt : String) (nc : Int) (entry : Entry) (s : σ)
    (hqt : supported_type qt) :
    ∃ q s2, buildOneQuestion rng vocab qt nc entry s = Except.ok (q, s2) := by
  rcases hqt with h | h | h | h <;> subst h
  · exact ⟨_, _, rfl⟩
  · exact ⟨_, _, rfl⟩
  · by_cases hcc : 0 < min (nc - 1)
        ((incorrect_pool_hanzi vocab entry).length : Int)
    · obtain ⟨r, s3, hf, _, _⟩ :=
        ((hg.2.1 (incorrect_pool_hanzi vocab entry)
          (min (nc - 1) ((incorrect_pool_hanzi vocab entry).length : Int)) s).1
          ⟨le_of_lt hcc, min_le_right _ _⟩)
      cases hres : buildOneQuestion rng vocab "translation_to_hanzi_mcq" nc
          entry s with
      | error err =>
        simp only [buildOneQuestion, String.reduceEq, reduceIte, if_pos hcc,
          hf] at hres
        exact Except.noConfusion hres
      | ok p =>
        obtain ⟨q0, sx⟩ := p
        exact ⟨q0, sx, rfl⟩
    · cases hres : buildOneQuestion rng vocab "translation_to_hanzi_mcq" nc
          entry s with
      | error err =>
        simp only [buildOneQuestion, String.reduceEq, reduceIte,
          if_neg hcc] at hres
        exact Except.noConfusion hres
      | ok p =>
        obtain ⟨q0, sx⟩ := p
        exact ⟨q0, sx, rfl⟩
  · by_cases hcc : 0 < min (nc - 1)
        ((incorrect_pool_translation vocab entry).length : Int)
    · obtain ⟨r, s3, hf, _, _⟩ :=
        ((hg.2.1 (incorrect_pool_translation vocab entry)
          (min (nc - 1) ((incorrect_pool_translation vocab entry).length : Int)) s).1
          ⟨le_of_lt hcc, min_le_right _ _⟩)
      cases hres : buildOneQuestion rng vocab "hanzi_to_translation_mcq" nc
          entry s with
      | error err =>
        simp only [buildOneQuestion, String.reduceEq, reduceIte, if_pos hcc,
          hf] at hres
        exact Except.noConfusion hres
      | ok p =>
        obtain ⟨q0, sx⟩ := p
        exact ⟨q0, sx, rfl⟩
    · cases hres : buildOneQuestion rng vocab "hanzi_to_translation_mcq" nc
          entry s with
      | error err =>
        simp only [buildOneQuestion, String.reduceEq, reduceIte,
          if_neg hcc] at hres
        exact Except.noConfusion hres
      | ok p =>
        obtain ⟨q0, sx⟩ := p
        exact ⟨q0, sx, rfl⟩

theorem buildQuestionsLoop_ok {σ : Type} {rng : RNG σ} (hg : GoodRNG rng)
    (vocab : List Entry) (qt : String) (nc : Int) (hqt : supported_type qt) :
    ∀ (entries : List Entry) (s : σ), ∃ qs s2,
      buildQuestionsLoop rng vocab qt nc entries s = Except.ok (qs, s2) ∧
      qs.length = entries.length := by
  intro entries
  induction entries with
  | nil => intro s; exact ⟨[], s, rfl, rfl⟩
  | cons e rest ih =>
    intro s
    obtain ⟨q, s2, h1⟩ := buildOneQuestion_ok hg vocab qt nc e s hqt
    obtain ⟨qs, s3, h2, hlen⟩ := ih s2
    refine ⟨q :: qs, s3, ?_, by simp [hlen]⟩
    simp only [buildQuestionsLoop, h1, h2]

theorem buildQuestionsLoop_mem {σ : Type} {rng : RNG σ} {vocab : List Entry}
    {qt : String} {nc : Int} :
    ∀ {entries : List Entry} {s : σ} {qs : List Question} {s2 : σ},
      buildQuestionsLoop rng vocab qt nc entries s = Except.ok (qs, s2) →
      ∀ q ∈ qs, ∃ entry, entry ∈ entries ∧ ∃ se s3,
        buildOneQuestion rng vocab qt nc entry se = Except.ok (q, s3) := by
  intro entries
  induction entries with
  | nil =>
    intro s qs s2 h q hq
    unfold buildQuestionsLoop at h
    cases h
    simp at hq
  | cons e rest ih =>
    intro s qs s2 h q hq
    cases h1 : buildOneQuestion rng vocab qt nc e s with
    | error err =>
      simp only [buildQuestionsLoop, h1] at h
      exact Except.noConfusion h
    | ok p1 =>
      obtain ⟨q1, s1⟩ := p1
      cases h2 : buildQuestionsLoop rng vocab qt nc rest s1 with
      | error err =>
        simp only [buildQuestionsLoop, h1, h2] at h
        exact Except.noConfusion h
      | ok p2 =>
        obtain ⟨qs2, s3⟩ := p2
        simp only [buildQuestionsLoop, h1, h2] at h
        rw [Except.ok.injEq, Prod.mk.injEq] at h
        obtain ⟨h6, h7⟩ := h
        subst h6
        rcases List.mem_cons.mp hq with hq3 | hq3
        · subst hq3
          exact ⟨e, by simp, s, s1, h1⟩
        · obtain ⟨entry, he, se, s4, h3⟩ := ih h2 q hq3
          exact ⟨entry, List.mem_cons_of_mem e he, se, s4, h3⟩

theorem build_question_pool_ok {σ : Type} {rng : RNG σ} (hg : GoodRNG rng)
    {vocab : List Entry} {n : Int} {qt : String} {nc : Int} {s0 : σ}
    (hqt : supported_type qt) (hn : 0 ≤ n) :
    ∃ qs s1, build_question_pool rng vocab n qt nc s0 = Except.ok (qs, s1) ∧
      (qs.length : Int) = min n (vocab.length : Int) := by
  have hpre : 0 ≤ min n (vocab.length : Int) ∧
      min n (vocab.length : Int) ≤ (vocab.length : Int) :=
    ⟨le_min hn (by positivity), min_le_right _ _⟩
  obtain ⟨selected, s1, hf, hlen, _⟩ := (hg.1 vocab _ s0).1 hpre
  obtain ⟨qs, s2, hloop, hlen2⟩ :=
    buildQuestionsLoop_ok hg vocab qt nc hqt selected s1
  refine ⟨qs, s2, ?_, ?_⟩
  · simp only [build_question_pool, hf, hloop]
  · rw [hlen2, hlen]

theorem build_question_pool_neg {σ : Type} {rng : RNG σ} (hg : GoodRNG rng)
    {vocab : List Entry} {n : Int} {qt : String} {nc : Int} {s0 : σ}
    (hn : n < 0) :
    build_question_pool rng vocab n qt nc s0 =
      Except.error "ValueError: sample" := by
  have hfail : rng.sampleE vocab (min n (vocab.length : Int)) s0 = none := by
    apply (hg.1 vocab _ s0).2
    intro hcon
    have := min_le_left n (vocab.length : Int)
    omega
  simp only [build_question_pool, hfail]

theorem build_question_pool_mem {σ : Type} {rng : RNG σ} (hg : GoodRNG rng)
    {vocab : List Entry} {n : Int} {qt : String} {nc : Int} {s0 : σ}
    {qs : List Question} {s1 : σ}
    (hb : build_question_pool rng vocab n qt nc s0 = Except.ok (qs, s1))
    {q : Question} (hq : q ∈ qs) :
    ∃ entry, entry ∈ vocab ∧ ∃ se s3,
      buildOneQuestion rng vocab qt nc entry se = Except.ok (q, s3) := by
  cases hsE : rng.sampleE vocab (min n (vocab.length : Int)) s0 with
  | none =>
    simp only [build_question_pool, hsE] at hb
    exact Except.noConfusion hb
  | some p =>
    obtain ⟨selected, s2⟩ := p
    simp only [build_question_pool, hsE] at hb
    have hpre : 0 ≤ min n (vocab.length : Int) ∧
        min n (vocab.length : Int) ≤ (vocab.length : Int) := by
      by_contra hcon
      rw [(hg.1 vocab _ s0).2 hcon] at hsE
      cases hsE
    obtain ⟨r, s3, hf, _, hsub⟩ := (hg.1 vocab _ s0).1 hpre
    rw [hsE] at hf
    injection hf with hf2
    rw [Prod.mk.injEq] at hf2
    obtain ⟨hr, hs⟩ := hf2
    subst hr
    obtain ⟨entry, he, se, s4, h3⟩ := buildQuestionsLoop_mem hb q hq
    exact ⟨entry, hsub.subset he, se, s4, h3⟩

/-- Structure of a question built in `hanzi_to_translation_mcq` mode:
distractors are drawn without replacement from the translations of entries
whose translation differs, the correct value is appended, and the result is a
shuffle of that list. -/
theorem buildOne_mcq_translation {σ : Type} {rng : RNG σ} (hg : GoodRNG rng)
    {vocab : List Entry} {nc : Int} {entry : Entry} {s : σ} {q : Question}
    {s2 : σ}
    (h : buildOneQuestion rng vocab "hanzi_to_translation_mcq" nc entry s =
      Except.ok (q, s2)) :
    q.qtype = "hanzi_to_translation_mcq" ∧ q.correct = entry.translation ∧
    ∃ d, d.Subperm (incorrect_pool_translation vocab entry) ∧
      d.length =
        (min (nc - 1)
          ((incorrect_pool_translation vocab entry).length : Int)).toNat ∧
      q.choices.Perm (d ++ [entry.translation]) := by
  by_cases hcc : 0 < min (nc - 1)
      ((incorrect_pool_translation vocab entry).length : Int)
  · obtain ⟨r, s3, hf, hlen, hsub⟩ :=
      ((hg.2.1 (incorrect_pool_translation vocab entry)
        (min (nc - 1) ((incorrect_pool_translation vocab entry).length : Int)) s).1
        ⟨le_of_lt hcc, min_le_right _ _⟩)
    simp only [buildOneQuestion, String.reduceEq, reduceIte, if_pos hcc, hf]
      at h
    rw [Except.ok.injEq, Prod.mk.injEq] at h
    obtain ⟨hq, _⟩ := h
    subst hq
    refine ⟨rfl, rfl, r, hsub, by omega, ?_⟩
    exact hg.2.2 (r ++ [entry.translation]) s3
  · simp only [buildOneQuestion, String.reduceEq, reduceIte, if_neg hcc] at h
    rw [Except.ok.injEq, Prod.mk.injEq] at h
    obtain ⟨hq, _⟩ := h
    subst hq
    have hle : min (nc - 1)
        ((incorrect_pool_translation vocab entry).length : Int) ≤ 0 :=
      le_of_not_lt hcc
    refine ⟨rfl, rfl, [], List.nil_subperm,
      by simp [Int.toNat_of_nonpos hle], ?_⟩
    exact hg.2.2 ([] ++ [entry.translation]) s

/-- Structure of a question built in `translation_to_hanzi_mcq` mode. -/
theorem buildOne_mcq_hanzi {σ : Type} {rng : RNG σ} (hg : GoodRNG rng)
    {vocab : List Entry} {nc : Int} {entry : Entry} {s : σ} {q : Question}
    {s2 : σ}
    (h : buildOneQuestion rng vocab "translation_to_hanzi_mcq" nc entry s =
      Except.ok (q, s2)) :
    q.qtype = "translation_to_hanzi_mcq" ∧ q.correct = entry.hanzi ∧
    ∃ d, d.Subperm (incorrect_pool_hanzi vocab entry) ∧
      d.length =
        (min (nc - 1)
          ((incorrect_pool_hanzi vocab entry).length : Int)).toNat ∧
      q.choices.Perm (d ++ [entry.hanzi]) := by
  by_cases hcc : 0 < min (nc - 1)
      ((incorrect_pool_hanzi vocab entry).length : Int)
  · obtain ⟨r, s3, hf, hlen, hsub⟩ :=
      ((hg.2.1 (incorrect_pool_hanzi vocab entry)
        (min (nc - 1) ((incorrect_pool_hanzi vocab entry).length : Int)) s).1
        ⟨le_of_lt hcc, min_le_right _ _⟩)
    simp only [buildOneQuestion, String.reduceEq, reduceIte, if_pos hcc, hf]
      at h
    rw [Except.ok.injEq, Prod.mk.injEq] at h
    obtain ⟨hq, _⟩ := h
    subst hq
    refine ⟨rfl, rfl, r, hsub, by omega, ?_⟩
    exact hg.2.2 (r ++ [entry.hanzi]) s3
  · simp only [buildOneQuestion, String.reduceEq, reduceIte, if_neg hcc] at h
    rw [Except.ok.injEq, Prod.mk.injEq] at h
    obtain ⟨hq, _⟩ := h
    subst hq
    have hle : min (nc - 1)
        ((incorrect_pool_hanzi vocab entry).length : Int) ≤ 0 :=
      le_of_not_lt hcc
    refine ⟨rfl, rfl, [], List.nil_subperm,
      by simp [Int.toNat_of_nonpos hle], ?_⟩
    exact hg.2.2 ([] ++ [entry.hanzi]) s

instance {ε α : Type} [DecidableEq ε] [DecidableEq α] :
    DecidableEq (Except ε α) := fun a b =>
  match a, b with
  | Except.error e1, Except.error e2 =>
    if h : e1 = e2 then isTrue (by rw [h])
    else isFalse (fun hc => h (by injection hc))
  | Except.error _, Except.ok _ => isFalse (fun hc => Except.noConfusion hc)
  | Except.ok _, Except.error _ => isFalse (fun hc => Except.noConfusion hc)
  | Except.ok v1, Except.ok v2 =>
    if h : v1 = v2 then isTrue (by rw [h])
    else isFalse (fun hc => h (by injection hc))

/-! ### Claim C3: synonym matching -/

/-- The entry of the synonym-matching scenario. -/
def c3entry : Entry :=
  { hanzi := "h3", pinyin := "ai4", translation := "aimer",
    alt_translations := "apprecier; adorer" }

/-- The question `build_question_pool` produces for `c3entry` in free-text
translation mode. -/
def c3question : Question :=
  { hanzi := "h3", pinyin := "ai4", translation := "aimer",
    alt_translations := "apprecier; adorer",
    qtype := "hanzi_to_translation_input",
    accepted_translations := ["aimer", "apprecier", "adorer"],
    accepted_answers_raw := ["aimer", "apprecier", "adorer"],
    correct := "aimer" }

/-- A fresh session on that single question. -/
def c3state : QuizState :=
  { questions := [c3question], current_idx := 0, num_questions := 1,
    score := 0, answered := false, last_choice := none, feedback := "",
    history := [], pinyin_variant := "with_tones" }

/-- **C3.** For a question built in free-text translation mode
(`hanzi_to_translation_input`) from the entry
`{translation: "aimer", alt_translations: "apprecier; adorer"}`,
`evaluate_answer` scores the submissions "Aimer", "AIMER ", "apprécier" and
"adorer" as correct, and scores "detester" as incorrect. -/
theorem C3_synonym_matching :
    build_question_pool takeRNG [c3entry] 1 "hanzi_to_translation_input" 4 ()
      = Except.ok ([c3question], ()) ∧
    (evaluate_answer (some "Aimer") c3state).map QuizState.score = some 1 ∧
    (evaluate_answer (some "AIMER ") c3state).map QuizState.score = some 1 ∧
    (evaluate_answer (some "apprécier") c3state).map QuizState.score = some 1 ∧
    (evaluate_answer (some "adorer") c3state).map QuizState.score = some 1 ∧
    (evaluate_answer (some "detester") c3state).map QuizState.score = some 0 ∧
    (evaluate_answer (some "detester") c3state).map
      (fun s2 => s2.history.map (fun h => h.is_correct)) = some [false] := by
  decide

/-! ### Claim C4: pinyin tone canonicalization -/

/-- **C4.** `normalize_pinyin_value` maps "ni3 hao3" and "nǐ hǎo" to equal
canonical tuples and "ni hao" to a distinct tuple with tone 0 (pairwise
distinct except for the first pair), and `strip_pinyin_tones` equates the
canonical forms of "ni3 hao3", "ni hao" and "nì hǎo" on base syllables. -/
theorem C4_pinyin_tones :
    normalize_pinyin_value "ni3 hao3" = [("ni", 3), ("hao", 3)] ∧
    normalize_pinyin_value "nǐ hǎo" = [("ni", 3), ("hao", 3)] ∧
    normalize_pinyin_value "ni hao" = [("ni", 0), ("hao", 0)] ∧
    normalize_pinyin_value "ni3 hao3" = normalize_pinyin_value "nǐ hǎo" ∧
    normalize_pinyin_value "ni3 hao3" ≠ normalize_pinyin_value "ni hao" ∧
    normalize_pinyin_value "nǐ hǎo" ≠ normalize_pinyin_value "ni hao" ∧
    strip_pinyin_tones (normalize_pinyin_value "ni3 hao3") = ["ni", "hao"] ∧
    strip_pinyin_tones (normalize_pinyin_value "ni hao") = ["ni", "hao"] ∧
    strip_pinyin_tones (normalize_pinyin_value "nì hǎo") = ["ni", "hao"] := by
  decide

/-! ### Claim C1: MCQ correctness -/

/-- Pool with a distractor translation that differs from the correct one only
by a trailing space. -/
def c1ceVocab : List Entry :=
  [{ hanzi := "h1", pinyin := "yi1", translation := "x",
     alt_translations := "" },
   { hanzi := "h2", pinyin := "er4", translation := "x ",
     alt_translations := "" }]

/-- First question built from `c1ceVocab` (prefix-sampling, identity
shuffle). -/
def c1ceQ : Question :=
  { hanzi := "h1", pinyin := "yi1", translation := "x",
    alt_translations := "", qtype := "hanzi_to_translation_mcq",
    choices := ["x ", "x"], correct := "x" }

/-- Second question built from `c1ceVocab`. -/
def c1ceQ2 : Question :=
  { hanzi := "h2", pinyin := "er4", translation := "x ",
    alt_translations := "", qtype := "hanzi_to_translation_mcq",
    choices := ["x", "x "], correct := "x " }

/-- Fresh session on the `c1ceVocab` questions. -/
def c1ceState : QuizState :=
  { questions := [c1ceQ, c1ceQ2], current_idx := 0, num_questions := 2,
    score := 0, answered := false, last_choice := none, feedback := "",
    history := [], pinyin_variant := "with_tones" }

/-- **C1 is false as stated**: on this pool, a question built in
`hanzi_to_translation_mcq` mode offers the choice `"x "`, which differs from
`correct = "x"`, yet submitting it increments the score (because
`evaluate_answer` strips the submission before the exact comparison). -/
theorem C1_counterexample :
    build_question_pool takeRNG c1ceVocab 2 "hanzi_to_translation_mcq" 4 () =
      Except.ok ([c1ceQ, c1ceQ2], ()) ∧
    "x " ∈ c1ceQ.choices ∧ "x " ≠ c1ceQ.correct ∧ c1ceState.score = 0 ∧
    (evaluate_answer (some "x ") c1ceState).map QuizState.score = some 1 := by
  decide

/-- **C1 (amended).** For every pool and admissible generator, every question
built in `hanzi_to_translation_mcq` mode has `correct` in `choices`, and
`evaluate_answer` scores correct exactly when the *stripped* submission equals
`correct`: submitting `correct` increments the score by 1 provided `correct`
has no surrounding whitespace, and submitting any other choice whose stripped
value differs from `correct` leaves the score unchanged. -/
theorem C1_mcq_correct_amended {σ : Type} (rng : RNG σ) (hg : GoodRNG rng)
    (vocab : List Entry) (n nc : Int) (s0 : σ) (qs : List Question) (s1 : σ)
    (hb : build_question_pool rng vocab n "hanzi_to_translation_mcq" nc s0 =
      Except.ok (qs, s1))
    (q : Question) (hq : q ∈ qs) (st : QuizState)
    (hcur : st.questions.get? st.current_idx = some q) :
    q.correct ∈ q.choices ∧
    (pyStrip q.correct = q.correct →
      ∃ st2, evaluate_answer (some q.correct) st = some st2 ∧
        st2.score = st.score + 1) ∧
    (∀ c ∈ q.choices, pyStrip c ≠ q.correct →
      ∃ st3, evaluate_answer (some c) st = some st3 ∧
        st3.score = st.score) := by
  obtain ⟨entry, hv, se, s3, hone⟩ := build_question_pool_mem hg hb hq
  obtain ⟨hqt, hcorr, d, hsub, hdlen, hperm⟩ := buildOne_mcq_translation hg hone
  have h1 : q.qtype ≠ "hanzi_to_translation_input" := by rw [hqt]; decide
  have h2 : q.qtype ≠ "hanzi_to_pinyin_input" := by rw [hqt]; decide
  have h3 : q.qtype ≠ "translation_to_hanzi_mcq" := by rw [hqt]; decide
  refine ⟨?_, ?_, ?_⟩
  · apply hperm.mem_iff.mpr
    rw [hcorr]
    simp
  · intro hps
    refine ⟨_, evaluate_answer_eq hcur (some q.correct), ?_⟩
    rw [evaluate_result_else h1 h2 h3]
    simp [Option.getD, hps]
  · intro c hc hne
    refine ⟨_, evaluate_answer_eq hcur (some c), ?_⟩
    rw [evaluate_result_else h1 h2 h3]
    have hfalse : (pyStrip c == q.correct) = false :=
      beq_eq_false_iff_ne.mpr hne
    simp [hfalse]

/-- Single-entry pool for the C1 witness. -/
def c1wEntry : Entry :=
  { hanzi := "h1", pinyin := "yi1", translation := "x",
    alt_translations := "" }

/-- The question built from it. -/
def c1wQ : Question :=
  { hanzi := "h1", pinyin := "yi1", translation := "x",
    alt_translations := "", qtype := "hanzi_to_translation_mcq",
    choices := ["x"], correct := "x" }

/-- Fresh session on it. -/
def c1wState : QuizState :=
  { questions := [c1wQ], current_idx := 0, num_questions := 1, score := 0,
    answered := false, last_choice := none, feedback := "", history := [],
    pinyin_variant := "with_tones" }

/-- Witness instantiating `C1_mcq_correct_amended` at a concrete pool. -/
theorem C1_mcq_correct_amended_witness :
    c1wQ.correct ∈ c1wQ.choices ∧
    (pyStrip c1wQ.correct = c1wQ.correct →
      ∃ st2, evaluate_answer (some c1wQ.correct) c1wState = some st2 ∧
        st2.score = c1wState.score + 1) ∧
    (∀ c ∈ c1wQ.choices, pyStrip c ≠ c1wQ.correct →
      ∃ st3, evaluate_answer (some c) c1wState = some st3 ∧
        st3.score = c1wState.score) :=
  C1_mcq_correct_amended takeRNG takeRNG_good [c1wEntry] 1 4 () [c1wQ] ()
    (by decide) c1wQ (by decide) c1wState (by decide)

/-! ### Claim C6: MCQ distractor counts -/

/-- Pool with two entries sharing the same translation value. -/
def c6ceVocab : List Entry :=
  [{ hanzi := "h1", pinyin := "yi1", translation := "x",
     alt_translations := "" },
   { hanzi := "h2", pinyin := "er4", translation := "x",
     alt_translations := "" }]

/-- First question built from `c6ceVocab`: the distractor pool is empty
because the *other* entry has the same translation value. -/
def c6ceQ1 : Question :=
  { hanzi := "h1", pinyin := "yi1", translation := "x",
    alt_translations := "", qtype := "hanzi_to_translation_mcq",
    choices := ["x"], correct := "x" }

/-- Second question built from `c6ceVocab`. -/
def c6ceQ2 : Question :=
  { hanzi := "h2", pinyin := "er4", translation := "x",
    alt_translations := "", qtype := "hanzi_to_translation_mcq",
    choices := ["x"], correct := "x" }

/-- **C6 is false as stated**: with duplicate translation values in the pool,
a `hanzi_to_translation_mcq` question has `min(num_choices-1, 0) = 0`
distractors, not `min(num_choices-1, |pool|-1) = 1`, because the code filters
the distractor pool by field *value*, not by entry identity: the choices list
has length 1, not `min(4-1, 2-1) + 1 = 2`. -/
theorem C6_counterexample :
    build_question_pool takeRNG c6ceVocab 2 "hanzi_to_translation_mcq" 4 () =
      Except.ok ([c6ceQ1, c6ceQ2], ()) ∧
    c6ceQ1.choices.length = 1 ∧
    (min (4 - 1) ((c6ceVocab.length : Int) - 1)).toNat + 1 = 2 := by
  decide

/-- **C6 (amended).** In either MCQ mode, each built question comes from a
pool entry and contains exactly `min(num_choices-1, F)` distractors sampled
without replacement from the other entries' target field, where `F` counts
the entries whose target-field *value* differs from the selected entry's
(not `|pool|-1`); the correct value is appended before the shuffle, so
`choices` is a permutation of distractors + correct and has length
`min(num_choices-1, F) + 1`. -/
theorem C6_mcq_distractors_amended {σ : Type} (rng : RNG σ) (hg : GoodRNG rng)
    (vocab : List Entry) (n nc : Int) (s0 : σ) (qt : String)
    (hqt : qt = "translation_to_hanzi_mcq" ∨ qt = "hanzi_to_translation_mcq")
    (qs : List Question) (s1 : σ)
    (hb : build_question_pool rng vocab n qt nc s0 = Except.ok (qs, s1))
    (q : Question) (hq : q ∈ qs) :
    ∃ entry, entry ∈ vocab ∧
      ((qt = "translation_to_hanzi_mcq" ∧ q.correct = entry.hanzi ∧
        ∃ d, d.Subperm (incorrect_pool_hanzi vocab entry) ∧
          d.length = (min (nc - 1)
            ((incorrect_pool_hanzi vocab entry).length : Int)).toNat ∧
          q.choices.Perm (d ++ [q.correct]) ∧
          q.choices.length = (min (nc - 1)
            ((incorrect_pool_hanzi vocab entry).length : Int)).toNat + 1) ∨
       (qt = "hanzi_to_translation_mcq" ∧ q.correct = entry.translation ∧
        ∃ d, d.Subperm (incorrect_pool_translation vocab entry) ∧
          d.length = (min (nc - 1)
            ((incorrect_pool_translation vocab entry).length : Int)).toNat ∧
          q.choices.Perm (d ++ [q.correct]) ∧
          q.choices.length = (min (nc - 1)
            ((incorrect_pool_translation vocab entry).length : Int)).toNat + 1)) := by
  rcases hqt with h | h <;> subst h
  · obtain ⟨entry, hv, se, s3, hone⟩ := build_question_pool_mem hg hb hq
    obtain ⟨hqt2, hcorr, d, hsub, hdlen, hperm⟩ := buildOne_mcq_hanzi hg hone
    refine ⟨entry, hv, Or.inl ⟨rfl, hcorr, d, hsub, hdlen, ?_, ?_⟩⟩
    · rw [hcorr]
      exact hperm
    · rw [hperm.length_eq]
      simp [hdlen]
  · obtain ⟨entry, hv, se, s3, hone⟩ := build_question_pool_mem hg hb hq
    obtain ⟨hqt2, hcorr, d, hsub, hdlen, hperm⟩ :=
      buildOne_mcq_translation hg hone
    refine ⟨entry, hv, Or.inr ⟨rfl, hcorr, d, hsub, hdlen, ?_, ?_⟩⟩
    · rw [hcorr]
      exact hperm
    · rw [hperm.length_eq]
      simp [hdlen]

/-- Two-entry pool with distinct translations for the C6 witness. -/
def c6wVocab : List Entry :=
  [{ hanzi := "h1", pinyin := "yi1", translation := "un",
     alt_translations := "" },
   { hanzi := "h2", pinyin := "er4", translation := "deux",
     alt_translations := "" }]

/-- First question built from `c6wVocab`. -/
def c6wQ1 : Question :=
  { hanzi := "h1", pinyin := "yi1", translation := "un",
    alt_translations := "", qtype := "hanzi_to_translation_mcq",
    choices := ["deux", "un"], correct := "un" }

/-- Second question built from `c6wVocab`. -/
def c6wQ2 : Question :=
  { hanzi := "h2", pinyin := "er4", translation := "deux",
    alt_translations := "", qtype := "hanzi_to_translation_mcq",
    choices := ["un", "deux"], correct := "deux" }

/-- Witness instantiating `C6_mcq_distractors_amended` at a concrete pool. -/
theorem C6_mcq_distractors_amended_witness :
    ∃ entry, entry ∈ c6wVocab ∧
      (("hanzi_to_translation_mcq" = "translation_to_hanzi_mcq" ∧
        c6wQ1.correct = entry.hanzi ∧
        ∃ d, d.Subperm (incorrect_pool_hanzi c6wVocab entry) ∧
          d.length = (min ((4 : Int) - 1)
            ((incorrect_pool_hanzi c6wVocab entry).length : Int)).toNat ∧
          c6wQ1.choices.Perm (d ++ [c6wQ1.correct]) ∧
          c6wQ1.choices.length = (min ((4 : Int) - 1)
            ((incorrect_pool_hanzi c6wVocab entry).length : Int)).toNat + 1) ∨
       ("hanzi_to_translation_mcq" = "hanzi_to_translation_mcq" ∧
        c6wQ1.correct = entry.translation ∧
        ∃ d, d.Subperm (incorrect_pool_translation c6wVocab entry) ∧
          d.length = (min ((4 : Int) - 1)
            ((incorrect_pool_translation c6wVocab entry).length : Int)).toNat ∧
          c6wQ1.choices.Perm (d ++ [c6wQ1.correct]) ∧
          c6wQ1.choices.length = (min ((4 : Int) - 1)
            ((incorrect_pool_translation c6wVocab entry).length : Int)).toNat + 1)) :=
  C6_mcq_distractors_amended takeRNG takeRNG_good c6wVocab 2 4 ()
    "hanzi_to_translation_mcq" (Or.inr rfl) [c6wQ1, c6wQ2] ()
    (by decide) c6wQ1 (by decide)

/-! ### Claim C2: degenerate counts -/

/-- **C2 is false as stated**: a requested count of `-1` (≤ 0) is not
silently clamped — it reaches `random.sample` with a negative size and
raises `ValueError`, even on an empty pool (which the claim says should
yield 0 questions). -/
theorem C2_counterexample :
    build_question_pool takeRNG [] (-1) "hanzi_to_translation_mcq" 4 () =
      Except.error "ValueError: sample" := by
  decide

/-- **C2 (amended).** For every pool and supported question type: a
non-negative requested count `n` never raises and returns exactly
`min(n, len(pool))` questions (so `n > len(pool)` is clamped to `len(pool)`,
and an empty pool or `n = 0` yields 0 questions); a negative `n` raises
`ValueError` from `random.sample`. -/
theorem C2_build_clamp_amended {σ : Type} (rng : RNG σ) (hg : GoodRNG rng)
    (vocab : List Entry) (qt : String) (hqt : supported_type qt) (nc : Int)
    (s0 : σ) (n : Int) :
    (0 ≤ n → ∃ qs s1,
      build_question_pool rng vocab n qt nc s0 = Except.ok (qs, s1) ∧
      (qs.length : Int) = min n (vocab.length : Int)) ∧
    (n < 0 → build_question_pool rng vocab n qt nc s0 =
      Except.error "ValueError: sample") :=
  ⟨fun hn => build_question_pool_ok hg hqt hn,
   fun hn => build_question_pool_neg hg hn⟩

/-- Witness instantiating `C2_build_clamp_amended`: a request of 5 questions
from a 2-entry pool. -/
theorem C2_build_clamp_amended_witness :
    ((0 : Int) ≤ 5 → ∃ qs s1,
      build_question_pool takeRNG c6wVocab 5 "hanzi_to_translation_mcq" 4 ()
        = Except.ok (qs, s1) ∧
      (qs.length : Int) = min 5 (c6wVocab.length : Int)) ∧
    ((5 : Int) < 0 →
      build_question_pool takeRNG c6wVocab 5 "hanzi_to_translation_mcq" 4 ()
        = Except.error "ValueError: sample") :=
  C2_build_clamp_amended takeRNG takeRNG_good c6wVocab
    "hanzi_to_translation_mcq" (Or.inr (Or.inr (Or.inr rfl))) 4 () 5

/-! ### Claim C7: blank submissions -/

/-- A blank (empty after stripping) submission is evaluated as incorrect in
every branch, provided the question's correct answer is non-empty. -/
theorem evaluate_result_blank (st : QuizState) (q : Question)
    (hcorr : q.correct ≠ "") : (evaluate_result st q "").1 = false := by
  unfold evaluate_result
  have hbeq : (("" : String) == q.correct) = false :=
    beq_eq_false_iff_ne.mpr (Ne.symm hcorr)
  have hemp : ("" : String).isEmpty = true := rfl
  by_cases h1 : q.qtype = "hanzi_to_translation_input"
  · simp [h1, hemp]
  · by_cases h2 : q.qtype = "hanzi_to_pinyin_input"
    · simp only [if_neg h1, if_pos h2]
      have hnp : normalize_pinyin_value "" = [] := rfl
      simp [hnp]
    · by_cases h3 : q.qtype = "translation_to_hanzi_mcq"
      · simp [if_neg h1, if_neg h2, h3, hbeq]
      · simp [if_neg h1, if_neg h2, if_neg h3, hbeq]

/-- **C7.** Submitting an empty or whitespace-only answer (including `None`)
to an in-progress session never raises, leaves the score unchanged, and
appends a history entry with `is_correct = false`, for every question type
whose correct answer is non-empty. -/
theorem C7_blank_submission (st : QuizState) (q : Question)
    (hcur : st.questions.get? st.current_idx = some q)
    (hcorr : q.correct ≠ "") (sub : Option String)
    (hblank : pyStrip (sub.getD "") = "") :
    evaluate_answer sub st = some
      { st with
        answered := true
        last_choice := some ""
        score := st.score
        feedback := (evaluate_result st q "").2
        history := st.history ++
          [{ hanzi := q.hanzi, pinyin := q.pinyin, correct := q.correct,
             translation := q.translation, question_type := q.qtype,
             user_choice := "", is_correct := false }] } := by
  have h := evaluate_answer_eq hcur sub
  rw [hblank, evaluate_result_blank st q hcorr] at h
  simpa using h

/-- State for the C7/C8/C10 witnesses: one MCQ question, fresh session. -/
def blankWitnessState : QuizState :=
  { questions := [c1wQ], current_idx := 0, num_questions := 1, score := 0,
    answered := false, last_choice := none, feedback := "", history := [],
    pinyin_variant := "with_tones" }

/-- Witness instantiating `C7_blank_submission` at a whitespace-only
submission. -/
theorem C7_blank_submission_witness :
    evaluate_answer (some "   ") blankWitnessState = some
      { blankWitnessState with
        answered := true
        last_choice := some ""
        score := blankWitnessState.score
        feedback := (evaluate_result blankWitnessState c1wQ "").2
        history := blankWitnessState.history ++
          [{ hanzi := c1wQ.hanzi, pinyin := c1wQ.pinyin,
             correct := c1wQ.correct, translation := c1wQ.translation,
             question_type := c1wQ.qtype, user_choice := "",
             is_correct := false }] } :=
  C7_blank_submission blankWitnessState c1wQ (by decide) (by decide)
    (some "   ") (by decide)

/-! ### Claim C8: double-submit guard -/

/-- **C8.** Submitting through the UI (which only offers the form while
`answered` is false) marks the question answered; a second submit on the same
question without an intervening advance returns the state unchanged — the
score is not incremented again and no second history entry is appended. -/
theorem C8_double_submit_guard (st : QuizState) (q : Question)
    (hans : st.answered = false)
    (hcur : st.questions.get? st.current_idx = some q)
    (sub1 sub2 : Option String) :
    ∃ st1, submit_answer sub1 st = some st1 ∧ st1.answered = true ∧
      submit_answer sub2 st1 = some st1 := by
  have h := evaluate_answer_eq hcur sub1
  refine ⟨{ st with
      answered := true
      last_choice := some (pyStrip (sub1.getD ""))
      score := st.score +
        (if (evaluate_result st q (pyStrip (sub1.getD ""))).1 then 1 else 0)
      feedback := (evaluate_result st q (pyStrip (sub1.getD ""))).2
      history := st.history ++
        [{ hanzi := q.hanzi, pinyin := q.pinyin, correct := q.correct,
           translation := q.translation, question_type := q.qtype,
           user_choice := pyStrip (sub1.getD ""),
           is_correct := (evaluate_result st q (pyStrip (sub1.getD ""))).1 }] },
    ?_, rfl, ?_⟩
  · unfold submit_answer
    rw [hans]
    simpa using h
  · unfold submit_answer
    rw [if_pos rfl]

/-- Witness instantiating `C8_double_submit_guard`. -/
theorem C8_double_submit_guard_witness :
    ∃ st1, submit_answer (some "x") blankWitnessState = some st1 ∧
      st1.answered = true ∧ submit_answer (some "y") st1 = some st1 :=
  C8_double_submit_guard blankWitnessState c1wQ (by decide) (by decide)
    (some "x") (some "y")

/-! ### Claim C10: totality of answer evaluation over type tags -/

/-- **C10.** For every question whose type tag is not one of the three
explicitly matched branches — including the fourth mode
`hanzi_to_translation_mcq` and any unknown tag — `evaluate_answer` falls
through to the final `else`, compares the stripped submission to `correct`
by exact string equality, and never raises; only `build_question_pool`
treats an unsupported question type as a fatal `ValueError`. -/
theorem C10_evaluate_total {σ : Type} (rng : RNG σ) (hg : GoodRNG rng)
    (vocab : List Entry) (hvocab : vocab ≠ []) (n : Int) (hn : 0 < n)
    (nc : Int) (s0 : σ) (qt : String)
    (hqt1 : qt ≠ "hanzi_to_translation_input")
    (hqt2 : qt ≠ "hanzi_to_pinyin_input")
    (hqt3 : qt ≠ "translation_to_hanzi_mcq")
    (hqt4 : qt ≠ "hanzi_to_translation_mcq")
    (st : QuizState) (q : Question)
    (hcur : st.questions.get? st.current_idx = some q)
    (h1 : q.qtype ≠ "hanzi_to_translation_input")
    (h2 : q.qtype ≠ "hanzi_to_pinyin_input")
    (h3 : q.qtype ≠ "translation_to_hanzi_mcq") (sub : Option String) :
    evaluate_answer sub st = some
      { st with
        answered := true
        last_choice := some (pyStrip (sub.getD ""))
        score := st.score +
          (if pyStrip (sub.getD "") == q.correct then 1 else 0)
        feedback := (evaluate_result st q (pyStrip (sub.getD ""))).2
        history := st.history ++
          [{ hanzi := q.hanzi, pinyin := q.pinyin, correct := q.correct,
             translation := q.translation, question_type := q.qtype,
             user_choice := pyStrip (sub.getD ""),
             is_correct := pyStrip (sub.getD "") == q.correct }] } ∧
    build_question_pool rng vocab n qt nc s0 =
      Except.error ("Unsupported question type: " ++ qt) := by
  constructor
  · have h := evaluate_answer_eq hcur sub
    rw [evaluate_result_else h1 h2 h3] at h
    exact h
  · have hlenpos : 0 < (vocab.length : Int) := by
      have := List.length_pos.mpr hvocab
      omega
    have htot : 0 < min n (vocab.length : Int) := lt_min hn hlenpos
    obtain ⟨selected, s1, hf, hlen, _⟩ :=
      (hg.1 vocab _ s0).1 ⟨le_of_lt htot, min_le_right _ _⟩
    cases selected with
    | nil => simp at hlen; omega
    | cons e rest =>
      have hone : buildOneQuestion rng vocab qt nc e s1 =
          Except.error ("Unsupported question type: " ++ qt) := by
        unfold buildOneQuestion
        rw [if_neg hqt1, if_neg hqt2, if_neg hqt3, if_neg hqt4]
      simp only [build_question_pool, hf, buildQuestionsLoop, hone]

/-- Question with the fourth (fall-through) tag and whitespace-free fields,
plus a state holding it, for the C10 witness. -/
theorem C10_evaluate_total_witness :
    (evaluate_answer (some "y") blankWitnessState = some
      { blankWitnessState with
        answered := true
        last_choice := some (pyStrip ((some "y").getD ""))
        score := blankWitnessState.score +
          (if pyStrip ((some "y").getD "") == c1wQ.correct then 1 else 0)
        feedback :=
          (evaluate_result blankWitnessState c1wQ
            (pyStrip ((some "y").getD ""))).2
        history := blankWitnessState.history ++
          [{ hanzi := c1wQ.hanzi, pinyin := c1wQ.pinyin,
             correct := c1wQ.correct, translation := c1wQ.translation,
             question_type := c1wQ.qtype,
             user_choice := pyStrip ((some "y").getD ""),
             is_correct := pyStrip ((some "y").getD "") == c1wQ.correct }] })
    ∧ build_question_pool takeRNG [c1wEntry] 1 "bogus_type" 4 () =
        Except.error ("Unsupported question type: " ++ "bogus_type") :=
  C10_evaluate_total takeRNG takeRNG_good [c1wEntry] (by decide) 1
    (by decide) 4 () "bogus_type" (by decide) (by decide) (by decide)
    (by decide) blankWitnessState c1wQ (by decide) (by decide) (by decide)
    (by decide) (some "y")

/-! ### Claim C9: session progression -/

/-- `reset_quiz` always zeroes the per-session fields. -/
theorem reset_quiz_fields {σ : Type} {rng : RNG σ} {vocab : List Entry}
    {n : Int} {qt variant : String} {s0 : σ} {st : QuizState}
    (h : reset_quiz rng vocab n qt variant s0 = some st) :
    st.current_idx = 0 ∧ st.score = 0 ∧ st.answered = false ∧
    st.history = [] ∧ st.last_choice = none ∧ st.feedback = "" := by
  by_cases hv : vocab.isEmpty = true
  · simp only [reset_quiz, hv, if_true, Option.some.injEq] at h
    subst h
    exact ⟨rfl, rfl, rfl, rfl, rfl, rfl⟩
  · cases hb : build_question_pool rng vocab
        (min n (vocab.length : Int)) qt 4 s0 with
    | error e =>
      simp only [reset_quiz, hv, Bool.false_eq_true, if_false, hb] at h
      exact Option.noConfusion h
    | ok p =>
      obtain ⟨qs, s1⟩ := p
      simp only [reset_quiz, hv, Bool.false_eq_true, if_false, hb,
        Option.some.injEq] at h
      subst h
      exact ⟨rfl, rfl, rfl, rfl, rfl, rfl⟩

/-- One UI cycle: submit an answer, then press "Question suivante". -/
def submit_and_advance (sub : Option String) (st : QuizState) :
    Option QuizState :=
  (submit_answer sub st).map advance_question

/-- Effect of one submit-then-advance cycle on an unanswered in-progress
state. -/
theorem submit_and_advance_eq (st : QuizState) (q : Question)
    (hq : st.questions.get? st.current_idx = some q)
    (hans : st.answered = false) (sub : Option String) :
    submit_and_advance sub st = some
      { st with
        current_idx := st.current_idx + 1
        answered := false
        last_choice := none
        feedback := ""
        score := st.score +
          (if (evaluate_result st q (pyStrip (sub.getD ""))).1 then 1 else 0)
        history := st.history ++
          [{ hanzi := q.hanzi, pinyin := q.pinyin, correct := q.correct,
             translation := q.translation, question_type := q.qtype,
             user_choice := pyStrip (sub.getD ""),
             is_correct :=
               (evaluate_result st q (pyStrip (sub.getD ""))).1 }] } := by
  unfold submit_and_advance submit_answer
  rw [hans]
  simp only [Bool.false_eq_true, if_false, evaluate_answer_eq hq sub,
    Option.map_some']
  unfold advance_question
  rw [if_pos rfl]

/-- **C9.** Starting from a fresh reset that builds 3 questions, three
consecutive submit-then-advance cycles leave the session COMPLETE
(`current_idx == len(questions)`); the score equals the number of correct
submissions among the three, and the history contains exactly 3 entries in
submission order. -/
theorem C9_session_progression {σ : Type} (rng : RNG σ) (vocab : List Entry)
    (qt variant : String) (s0 : σ) (st0 : QuizState)
    (hreset : reset_quiz rng vocab 3 qt variant s0 = some st0)
    (hlen : st0.questions.length = 3) (a1 a2 a3 : Option String) :
    ∃ st6, ((submit_and_advance a1 st0).bind
        (submit_and_advance a2)).bind (submit_and_advance a3) = some st6 ∧
      st6.current_idx = st6.questions.length ∧ session_complete st6 ∧
      st6.history.length = 3 ∧
      st6.score = (st6.history.filter (fun h => h.is_correct)).length ∧
      st6.history.map (fun h => h.user_choice) =
        [pyStrip (a1.getD ""), pyStrip (a2.getD ""),
         pyStrip (a3.getD "")] := by
  obtain ⟨hidx, hsc, hans, hhist, hlc, hfb⟩ := reset_quiz_fields hreset
  obtain ⟨q1, hq1⟩ : ∃ q, st0.questions.get? st0.current_idx = some q := by
    rw [hidx]
    exact ⟨_, List.get?_eq_get (by omega)⟩
  obtain ⟨q2, hq2⟩ : ∃ q, st0.questions.get? (st0.current_idx + 1)
      = some q := by
    rw [hidx]
    exact ⟨_, List.get?_eq_get (by omega)⟩
  obtain ⟨q3, hq3⟩ : ∃ q, st0.questions.get? (st0.current_idx + 1 + 1)
      = some q := by
    rw [hidx]
    exact ⟨_, List.get?_eq_get (by omega)⟩
  have h1 := submit_and_advance_eq st0 q1 hq1 hans a1
  set ua1 := pyStrip (a1.getD "") with hua1
  set ua2 := pyStrip (a2.getD "") with hua2
  set ua3 := pyStrip (a3.getD "") with hua3
  set b1 := (evaluate_result st0 q1 ua1).1 with hb1
  set e1 : HistoryEntry :=
    ({ hanzi := q1.hanzi
       pinyin := q1.pinyin
       correct := q1.correct
       translation := q1.translation
       question_type := q1.qtype
       user_choice := ua1
       is_correct := b1 }) with he1
  set S1 : QuizState :=
    ({ st0 with
       current_idx := st0.current_idx + 1
       answered := false
       last_choice := none
       feedback := ""
       score := st0.score + (if b1 then 1 else 0)
       history := st0.history ++ [e1] }) with hS1
  have h2 := submit_and_advance_eq S1 q2 hq2 rfl a2
  set b2 := (evaluate_result S1 q2 ua2).1 with hb2
  set e2 : HistoryEntry :=
    ({ hanzi := q2.hanzi
       pinyin := q2.pinyin
       correct := q2.correct
       translation := q2.translation
       question_type := q2.qtype
       user_choice := ua2
       is_correct := b2 }) with he2
  set S2 : QuizState :=
    ({ S1 with
       current_idx := S1.current_idx + 1
       answered := false
       last_choice := none
       feedback := ""
       score := S1.score + (if b2 then 1 else 0)
       history := S1.history ++ [e2] }) with hS2
  have h3 := submit_and_advance_eq S2 q3 hq3 rfl a3
  set b3 := (evaluate_result S2 q3 ua3).1 with hb3
  set e3 : HistoryEntry :=
    ({ hanzi := q3.hanzi
       pinyin := q3.pinyin
       correct := q3.correct
       translation := q3.translation
       question_type := q3.qtype
       user_choice := ua3
       is_correct := b3 }) with he3
  set S3 : QuizState :=
    ({ S2 with
       current_idx := S2.current_idx + 1
       answered := false
       last_choice := none
       feedback := ""
       score := S2.score + (if b3 then 1 else 0)
       history := S2.history ++ [e3] }) with hS3
  refine ⟨S3, ?_, ?_, ?_, ?_, ?_, ?_⟩
  · rw [h1, Option.some_bind, h2, Option.some_bind, h3]
  · show st0.current_idx + 1 + 1 + 1 = st0.questions.length
    rw [hidx, hlen]
  · show st0.questions.length ≤ st0.current_idx + 1 + 1 + 1
    rw [hidx, hlen]
  · show (st0.history ++ [e1] ++ [e2] ++ [e3]).length = 3
    rw [hhist]
    rfl
  · show st0.score + (if b1 then 1 else 0) + (if b2 then 1 else 0) +
        (if b3 then 1 else 0) =
      ((st0.history ++ [e1] ++ [e2] ++ [e3]).filter
        (fun h => h.is_correct)).length
    rw [hsc, hhist, he1, he2, he3]
    simp only [List.nil_append]
    cases b1 <;> cases b2 <;> cases b3 <;> simp
  · show (st0.history ++ [e1] ++ [e2] ++ [e3]).map
        (fun h => h.user_choice) = [ua1, ua2, ua3]
    rw [hhist, he1, he2, he3]
    rfl

/-- Three-entry pool for the C9 witness. -/
def c9wVocab : List Entry :=
  [{ hanzi := "h1", pinyin := "yi1", translation := "un",
     alt_translations := "" },
   { hanzi := "h2", pinyin := "er4", translation := "deux",
     alt_translations := "" },
   { hanzi := "h3", pinyin := "san1", translation := "trois",
     alt_translations := "" }]

/-- The three questions `reset_quiz` builds from `c9wVocab` with the
prefix-sampling generator. -/
def c9wQ1 : Question :=
  { hanzi := "h1", pinyin := "yi1", translation := "un",
    alt_translations := "", qtype := "hanzi_to_translation_mcq",
    choices := ["deux", "trois", "un"], correct := "un" }

/-- Second question of the C9 witness session. -/
def c9wQ2 : Question :=
  { hanzi := "h2", pinyin := "er4", translation := "deux",
    alt_translations := "", qtype := "hanzi_to_translation_mcq",
    choices := ["un", "trois", "deux"], correct := "deux" }

/-- Third question of the C9 witness session. -/
def c9wQ3 : Question :=
  { hanzi := "h3", pinyin := "san1", translation := "trois",
    alt_translations := "", qtype := "hanzi_to_translation_mcq",
    choices := ["un", "deux", "trois"], correct := "trois" }

/-- The state `reset_quiz` produces from `c9wVocab`. -/
def c9wSt0 : QuizState :=
  { questions := [c9wQ1, c9wQ2, c9wQ3], current_idx := 0,
    num_questions := 3, score := 0, answered := false, last_choice := none,
    feedback := "", history := [], pinyin_variant := "with_tones" }

/-- Witness instantiating `C9_session_progression` at a concrete session. -/
theorem C9_session_progression_witness :
    ∃ st6, ((submit_and_advance (some "un") c9wSt0).bind
        (submit_and_advance (some "deux"))).bind
          (submit_and_advance (some "faux")) = some st6 ∧
      st6.current_idx = st6.questions.length ∧ session_complete st6 ∧
      st6.history.length = 3 ∧
      st6.score = (st6.history.filter (fun h => h.is_correct)).length ∧
      st6.history.map (fun h => h.user_choice) =
        [pyStrip ((some "un").getD ""), pyStrip ((some "deux").getD ""),
         pyStrip ((some "faux").getD "")] :=
  C9_session_progression takeRNG c9wVocab "hanzi_to_translation_mcq"
    "with_tones" () c9wSt0 (by decide) (by decide) (some "un") (some "deux")
    (some "faux")

end HSK
